import Mathlib

/-!
Verification of the orthogonal edge-routing and grid-placement subsystem
(packages `d2gridrouter` and `d2wueortho`).

Shallow embedding conventions:
* Go `float64` values are modelled as rationals (`ℚ`).  Every numeric
  operation the embedded code performs — comparison, addition, subtraction,
  multiplication, division by a constant, `math.Abs`, `math.Min`, `math.Max` —
  is exact on rationals, so the embedding computes the same values the Go
  code computes whenever the Go floats round-trip exactly (all the concrete
  inputs used below are small dyadic or decimal rationals, where they do).
* In-place mutation of slices and struct fields is modelled by returning the
  updated value; pointer sharing is resolved by hand at each site and noted.
* Go maps iterated with `range` are modelled by iterating keys in ascending
  order; this is noted at each site and is only done where the result is
  independent of the iteration order.
-/

namespace D2

/-- A 2-D point (`geo.Point`). -/
structure Point where
  x : ℚ
  y : ℚ
deriving DecidableEq, Repr

/-- Segment/channel orientation (`types.go`). -/
inductive Orientation where
  | horizontal
  | vertical
deriving DecidableEq, Repr

/-- Side of a box (`types.go`, `Direction`). -/
inductive Direction where
  | top
  | right
  | bottom
  | left
deriving DecidableEq, Repr

/-- Axis-aligned rectangle, top-left corner plus dimensions (`types.go`, `Rect`). -/
structure Rect where
  x : ℚ
  y : ℚ
  w : ℚ
  h : ℚ
deriving DecidableEq, Repr

def Rect.left (r : Rect) : ℚ := r.x
def Rect.right (r : Rect) : ℚ := r.x + r.w
def Rect.top (r : Rect) : ℚ := r.y
def Rect.bottom (r : Rect) : ℚ := r.y + r.h
def Rect.centerX (r : Rect) : ℚ := r.x + r.w / 2
def Rect.centerY (r : Rect) : ℚ := r.y + r.h / 2

/-- `router.go` `simplifyRoute`'s tolerance comparison `nearEq` (tol = 0.5). -/
def nearEq (a b : ℚ) : Bool := |a - b| < 1/2

/-- First pass of `simplifyRoute`: remove consecutive duplicates.
`prev` is the last point already kept. -/
def dedupAux : Point → List Point → List Point
  | _, [] => []
  | prev, p :: rest =>
    if nearEq p.x prev.x && nearEq p.y prev.y then dedupAux prev rest
    else p :: dedupAux p rest

/-- `simplifyRoute`'s dedup pass, seeded with the first point. -/
def dedupPoints : List Point → List Point
  | [] => []
  | p :: rest => p :: dedupAux p rest

/-- The snap of a bend point to alignment with the previous kept point
(`router.go` lines: `if nearEq(prev.X, curr.X) curr.X = prev.X` …).
The same code is used for the trailing point of the route. -/
def snapToPrev (prev curr : Point) : Point :=
  if nearEq prev.x curr.x then { curr with x := prev.x }
  else if nearEq prev.y curr.y then { curr with y := prev.y }
  else curr

/-- The snap of a bend point to alignment with the next point. -/
def snapToNext (curr next : Point) : Point :=
  if nearEq curr.x next.x then { curr with x := next.x }
  else if nearEq curr.y next.y then { curr with y := next.y }
  else curr

/-- Second pass of `simplifyRoute`: walk the interior points, dropping
near-collinear ones and snapping the kept bends; the final element is the
route's last point, which is snapped towards the previous kept point.
`prev` tracks the last point appended to the result (`result[len(result)-1]`
in the Go code, i.e. already snapped). -/
def simplifyMid : Point → List Point → List Point
  | _, [] => []
  | prev, [last] => [snapToPrev prev last]
  | prev, curr :: next :: rest =>
    if (nearEq prev.x curr.x && nearEq curr.x next.x) ||
       (nearEq prev.y curr.y && nearEq curr.y next.y) then
      simplifyMid prev (next :: rest)
    else
      let c := snapToNext (snapToPrev prev curr) next
      c :: simplifyMid c (next :: rest)

/-- `router.go` `simplifyRoute`: remove duplicate and collinear points, snap
near-aligned coordinates.  Returns the new point sequence (the Go code also
mutates the shared point records in place; the returned sequence is the
observable route). -/
def simplifyRoute (points : List Point) : List Point :=
  if points.length ≤ 1 then points
  else
    let deduped := dedupPoints points
    if deduped.length ≤ 2 then deduped
    else
      match deduped with
      | [] => []
      | d0 :: rest => d0 :: simplifyMid d0 rest

/-- Two points are within the 0.5 tolerance of each other in both coordinates. -/
def closePt (a b : Point) : Prop := |a.x - b.x| < 1/2 ∧ |a.y - b.y| < 1/2

/-- Go slice element assignment `l[i] = f(l[i])`, as a pure update.  A no-op
when `i` is out of range (the embedded code never indexes out of range at the
modelled call sites). -/
def modAt {α : Type} : List α → ℕ → (α → α) → List α
  | [], _, _ => []
  | a :: l, 0, f => f a :: l
  | a :: l, n+1, f => a :: modAt l n f

/-- `types.go` `EdgeRoute`: the result of routing a single edge. -/
structure EdgeRoute where
  edgeIdx : ℕ
  points : List Point
deriving DecidableEq, Repr

/-- `d2wueortho/nudging.go` `edgeSegment`: one orthogonal segment of a route. -/
structure EdgeSegment where
  edgeIdx : ℕ
  segIdx : ℕ
  orientation : Orientation
  fixedCoord : ℚ
  rangeMin : ℚ
  rangeMax : ℚ
deriving DecidableEq, Repr

/-- `d2wueortho/nudging.go` `segmentBundle`: segments sharing a corridor. -/
structure SegmentBundle where
  orientation : Orientation
  fixedCoord : ℚ
  segments : List EdgeSegment
deriving DecidableEq, Repr

/-- Reading a Go `map[int]float64` (zero value `0` for a missing key), the
map being modelled as an association list. -/
def lookupQ (m : List (ℕ × ℚ)) (k : ℕ) : ℚ :=
  match m.find? (fun p => p.1 == k) with
  | some p => p.2
  | none => 0

/-- The per-point shift of `applyNudgeOffsets`: a horizontal bundle shifts
`Y`, a vertical bundle shifts `X` (the Go code spells the two branches out
textually; they differ only in the shifted coordinate). -/
def nudgeShift (orient : Orientation) (offset : ℚ) (p : Point) : Point :=
  if orient = Orientation.horizontal then { p with y := p.y + offset }
  else { p with x := p.x + offset }

/-- The body of the `applyNudgeOffsets` loop acting on the one route it
touches: shift the bundled segment's two points along the perpendicular axis,
except the first point of the route and the last point of the route. -/
def nudgeRouteUpdate (orient : Orientation) (offset : ℚ) (segIdx : ℕ)
    (r : EdgeRoute) : EdgeRoute :=
  if segIdx + 1 ≥ r.points.length then r
  else
    let isFirstPt := segIdx = 0
    let isLastPt := segIdx + 2 = r.points.length
    let a := if isFirstPt then r.points
             else modAt r.points segIdx (nudgeShift orient offset)
    let pts := if isLastPt then a
               else modAt a (segIdx + 1) (nudgeShift orient offset)
    { r with points := pts }

/-- One iteration of the loop in `d2wueortho/nudging.go` `applyNudgeOffsets`:
process one bundled segment. -/
def nudgeSegStep (offsets : List (ℕ × ℚ)) (orient : Orientation)
    (routes : List EdgeRoute) (seg : EdgeSegment) : List EdgeRoute :=
  let offset := lookupQ offsets seg.edgeIdx
  if |offset| < 1/10 then routes
  else modAt routes seg.edgeIdx (nudgeRouteUpdate orient offset seg.segIdx)

/-- `d2wueortho/nudging.go` `applyNudgeOffsets`: apply the computed per-edge
offsets to the route points of one bundle's segments. -/
def applyNudgeOffsets (routes : List EdgeRoute) (bundle : SegmentBundle)
    (offsets : List (ℕ × ℚ)) : List EdgeRoute :=
  bundle.segments.foldl (fun rs seg => nudgeSegStep offsets bundle.orientation rs seg) routes

/-- `types.go` `RoutingGraphNode`: a vertex of the routing graph. -/
structure RoutingGraphNode where
  id : ℕ
  pos : Point
deriving DecidableEq, Repr

/-- `types.go` `RoutingGraphEdge`.  The Go field names are `From`/`To`
(`from` is reserved in Lean). -/
structure RoutingGraphEdge where
  fromId : ℕ
  toId : ℕ
  weight : ℚ
  orientation : Orientation
deriving DecidableEq, Repr

/-- `types.go` `RoutingGraph`.  The Go adjacency is `map[int][]RoutingGraphEdge`
keyed by node ID; node IDs are assigned densely (`id := len(nodes)` in
`buildRoutingGraph`), so the map is modelled as a list indexed by ID. -/
structure RoutingGraph where
  nodes : List RoutingGraphNode
  adj : List (List RoutingGraphEdge)
deriving DecidableEq, Repr

/-- `rg.Nodes[i].Pos` (the embedded code only reads in-range IDs; out-of-range
reads, which would panic in Go, default to the origin). -/
def nodePos (nodes : List RoutingGraphNode) (i : ℕ) : Point :=
  ((nodes[i]?).map (fun n => n.pos)).getD ⟨0, 0⟩

/-- `router.go` `segmentsCross`: two orthogonal segments cross iff one is
horizontal, the other vertical, and each one's fixed coordinate is strictly
inside the other's range (eps = 0.5 classifies horizontality). -/
def segmentsCross (a1 a2 b1 b2 : Point) : Bool :=
  let aHoriz : Bool := |a1.y - a2.y| < 1/2
  let bHoriz : Bool := |b1.y - b2.y| < 1/2
  if aHoriz == bHoriz then false
  else
    let hStart := if aHoriz then a1 else b1
    let hEnd := if aHoriz then a2 else b2
    let vStart := if aHoriz then b1 else a1
    let vEnd := if aHoriz then b2 else a2
    let hMinX := min hStart.x hEnd.x
    let hMaxX := max hStart.x hEnd.x
    let vMinY := min vStart.y vEnd.y
    let vMaxY := max vStart.y vEnd.y
    vStart.x > hMinX && vStart.x < hMaxX && hStart.y > vMinY && hStart.y < vMaxY

/-- `router.go` `routedSeg`: a segment of an already-routed edge, as a pair of
routing-graph node IDs. -/
structure RoutedSeg where
  fromId : ℕ
  toId : ℕ
deriving DecidableEq, Repr

/-- The crossing test of the `addCrossingPenalties` inner loop: the Go code
breaks at the first routed segment that crosses the edge and applies the
penalty once, i.e. the penalty is applied iff some routed segment crosses. -/
def edgeCrossesRouted (nodes : List RoutingGraphNode) (routed : List RoutedSeg)
    (e : RoutingGraphEdge) : Bool :=
  routed.any (fun rs =>
    segmentsCross (nodePos nodes e.fromId) (nodePos nodes e.toId)
      (nodePos nodes rs.fromId) (nodePos nodes rs.toId))

/-- The scan for the reverse adjacency entry
(`for ri := range rg.Adj[edge.To] … if rev.From == edge.To && rev.To == edge.From`):
index of the first matching entry. -/
def findRevIdx : List RoutingGraphEdge → ℕ → ℕ → Option ℕ
  | [], _, _ => none
  | e :: rest, a, b =>
    if e.fromId == a && e.toId == b then some 0
    else (findRevIdx rest a b).map (· + 1)

/-- `edge.Weight += δ` at adjacency cell `(i, j)`. -/
def bumpWeight (adj : List (List RoutingGraphEdge)) (i j : ℕ) (δ : ℚ) :
    List (List RoutingGraphEdge) :=
  modAt adj i (fun row => modAt row j (fun e => { e with weight := e.weight + δ }))

/-- One iteration of the double loop shared by `addCrossingPenalties`
(δ = +500) and `removeCrossingPenalties` (δ = −500): process adjacency cell
`ij`; if the entry is a forward entry (`edge.From == nodeID`) that crosses a
routed segment, bump its weight and the weight of the first reverse entry. -/
def crossPenaltyStep (nodes : List RoutingGraphNode) (routed : List RoutedSeg)
    (δ : ℚ) (adj : List (List RoutingGraphEdge)) (ij : ℕ × ℕ) :
    List (List RoutingGraphEdge) :=
  match (adj[ij.1]?).bind (fun row => row[ij.2]?) with
  | none => adj
  | some e =>
    if e.fromId == ij.1 && edgeCrossesRouted nodes routed e then
      let adj1 := bumpWeight adj ij.1 ij.2 δ
      match findRevIdx ((adj1[e.toId]?).getD []) e.toId e.fromId with
      | some k => bumpWeight adj1 e.toId k δ
      | none => adj1
    else adj

/-- The index pairs visited by
`for nodeID, edges := range rg.Adj { for ei := range edges … } }`.
Go iterates the map in unspecified order; ascending order is used here — the
outcome is order-independent because every update is an additive bump whose
guard reads only the `From`/`To` fields and node positions, none of which the
loop modifies. -/
def adjIndexPairs (adj : List (List RoutingGraphEdge)) : List (ℕ × ℕ) :=
  (List.range adj.length).flatMap
    (fun i => (List.range ((adj[i]?).getD []).length).map (fun j => (i, j)))

/-- The shared body of `addCrossingPenalties` / `removeCrossingPenalties`. -/
def applyCrossingPenalty (δ : ℚ) (rg : RoutingGraph) (routed : List RoutedSeg) :
    RoutingGraph :=
  { rg with adj := (adjIndexPairs rg.adj).foldl (crossPenaltyStep rg.nodes routed δ) rg.adj }

/-- `router.go` `crossingPenalty` constant. -/
def crossingPenalty : ℚ := 500

/-- `router.go` `addCrossingPenalties`. -/
def addCrossingPenalties (rg : RoutingGraph) (routed : List RoutedSeg) : RoutingGraph :=
  if routed.isEmpty then rg else applyCrossingPenalty crossingPenalty rg routed

/-- `router.go` `removeCrossingPenalties`. -/
def removeCrossingPenalties (rg : RoutingGraph) (routed : List RoutedSeg) : RoutingGraph :=
  if routed.isEmpty then rg else applyCrossingPenalty (-crossingPenalty) rg routed

/-- The non-weight data of an adjacency entry (everything the penalty loops
read: endpoints; the weight is the only field they write). -/
def eKey (e : RoutingGraphEdge) : ℕ × ℕ := (e.fromId, e.toId)

/-- The non-weight image of an adjacency structure. -/
def adjShape (adj : List (List RoutingGraphEdge)) : List (List (ℕ × ℕ)) :=
  adj.map (fun row => row.map eKey)

/-- Apply a weight bump to a list of adjacency cells. -/
def bumpCells (adj : List (List RoutingGraphEdge)) (cells : List (ℕ × ℕ))
    (δ : ℚ) : List (List RoutingGraphEdge) :=
  cells.foldl (fun a c => bumpWeight a c.1 c.2 δ) adj

/-- The set of adjacency cells `crossPenaltyStep` bumps at cell `ij`
(computed from the pre-step adjacency; the step's own reverse-entry search
runs on the once-bumped adjacency, whose `From`/`To` fields are unchanged). -/
def touchedCells (nodes : List RoutingGraphNode) (routed : List RoutedSeg)
    (adj : List (List RoutingGraphEdge)) (ij : ℕ × ℕ) : List (ℕ × ℕ) :=
  match (adj[ij.1]?).bind (fun row => row[ij.2]?) with
  | none => []
  | some e =>
    if e.fromId == ij.1 && edgeCrossesRouted nodes routed e then
      match findRevIdx ((adj[e.toId]?).getD []) e.toId e.fromId with
      | some k => [(ij.1, ij.2), (e.toId, k)]
      | none => [(ij.1, ij.2)]
    else []

/-- `types.go` `DijkstraState`: state tracked during the modified Dijkstra.
`Parent` is an `int` that is `-1` for the two start states. -/
structure DijkstraState where
  nodeId : ℕ
  length : ℚ
  bends : ℕ
  direction : Orientation
  parent : ℤ
deriving DecidableEq, Repr

/-- `types.go` `DijkstraState.Less`: lexicographic (length with epsilon 1e-9,
then bends). -/
def stateLess (a b : DijkstraState) : Bool :=
  if |a.length - b.length| > 1/1000000000 then a.length < b.length
  else a.bends < b.bends

/-- `dijkstra.go` `stateKey`: the visited key (node, entry direction). -/
structure StateKey where
  nodeId : ℕ
  dir : Orientation
deriving DecidableEq, Repr

/-- Go map read `m[k]` returning `(value, ok)`; maps are modelled as
association lists where the most recent insertion is found first. -/
def lookupKey {β : Type} (m : List (StateKey × β)) (k : StateKey) : Option β :=
  (m.find? (fun p => p.1 == k)).map (fun p => p.2)

/-- Select a minimal element of the priority queue under `stateLess`,
returning it and the remaining queue.  `container/heap` pops a minimal
element; which of several lexicographically equal states is popped first is
an implementation detail of the binary heap that nothing proved here depends
on (this model pops the first minimal element in insertion order). -/
def popMinAux : DijkstraState → List DijkstraState →
    DijkstraState × List DijkstraState
  | best, [] => (best, [])
  | best, s :: rest =>
    if stateLess s best then
      let (m, r) := popMinAux s rest
      (m, best :: r)
    else
      let (m, r) := popMinAux best rest
      (m, s :: r)

def popMin : List DijkstraState → Option (DijkstraState × List DijkstraState)
  | [] => none
  | s :: rest => some (popMinAux s rest)

/-- The state built when expanding `cur` along `edge`
(`dijkstra.go` lines 67-79): `newBends := cur.Bends`, incremented iff the
edge's orientation differs from the entry direction and the current node is
not the start; length accumulates the edge weight; the entry direction of the
new state is the edge's orientation. -/
def newStateFor (srcNode : ℕ) (cur : DijkstraState) (e : RoutingGraphEdge) :
    DijkstraState :=
  let newBends :=
    if cur.nodeId ≠ srcNode ∧ e.orientation ≠ cur.direction then cur.bends + 1
    else cur.bends
  { nodeId := e.toId
    length := cur.length + e.weight
    bends := newBends
    direction := e.orientation
    parent := (cur.nodeId : ℤ) }

/-- `dijkstra.go` `reconstructPath` body: walk the parent map back from the
destination key, collecting node IDs (the Go code appends then reverses; the
cons-accumulator builds the reversed list directly).  The fuel exceeds any
acyclic chain length; the Go loop would not terminate on a cyclic parent map,
which the search never constructs. -/
def reconPath (parent : List (StateKey × StateKey)) (srcNode : ℕ) :
    ℕ → StateKey → List ℕ → List ℕ
  | 0, _, acc => acc
  | fuel+1, cur, acc =>
    if cur.nodeId = srcNode then acc
    else
      match lookupKey parent cur with
      | none => cur.nodeId :: acc
      | some prev => reconPath parent srcNode fuel prev (cur.nodeId :: acc)

def reconstructPath (parent : List (StateKey × StateKey)) (endKey : StateKey)
    (srcNode : ℕ) : List ℕ :=
  reconPath parent srcNode (parent.length + 1) endKey []

/-- The expansion of one popped state over its adjacency row
(`dijkstra.go` lines 66-92), threading (best, parent, pq). -/
def expandState (srcNode : ℕ) (cur : DijkstraState) (curKey : StateKey)
    (visited : List StateKey) (row : List RoutingGraphEdge)
    (acc : List (StateKey × DijkstraState) × List (StateKey × StateKey) ×
      List DijkstraState) :
    List (StateKey × DijkstraState) × List (StateKey × StateKey) ×
      List DijkstraState :=
  row.foldl
    (fun acc e =>
      let b := acc.1
      let p := acc.2.1
      let q := acc.2.2
      let ns := newStateFor srcNode cur e
      let newKey : StateKey := ⟨e.toId, e.orientation⟩
      if visited.contains newKey then acc
      else
        match lookupKey b newKey with
        | some bst =>
          if ¬ (stateLess ns bst = true) then acc
          else ((newKey, ns) :: b, (newKey, curKey) :: p, q ++ [ns])
        | none => ((newKey, ns) :: b, (newKey, curKey) :: p, q ++ [ns]))
    acc

/-- The Dijkstra main loop (`dijkstra.go` lines 52-93), with explicit fuel
(each iteration pops one queue element; the fuel passed by `dijkstraRoute`
exceeds the total number of pushes plus skips). -/
def dijkstraLoop (rg : RoutingGraph) (srcNode dstNode : ℕ) :
    ℕ → List DijkstraState → List (StateKey × DijkstraState) →
    List (StateKey × StateKey) → List StateKey → List ℕ
  | 0, _, _, _, _ => []
  | fuel+1, pq, best, parent, visited =>
    match popMin pq with
    | none => []
    | some (cur, pq1) =>
      let curKey : StateKey := ⟨cur.nodeId, cur.direction⟩
      if visited.contains curKey then
        dijkstraLoop rg srcNode dstNode fuel pq1 best parent visited
      else
        let visited1 := curKey :: visited
        if cur.nodeId = dstNode then
          reconstructPath parent curKey srcNode
        else
          let row := (rg.adj[cur.nodeId]?).getD []
          let acc := expandState srcNode cur curKey visited1 row (best, parent, pq1)
          dijkstraLoop rg srcNode dstNode fuel acc.2.2 acc.1 acc.2.1 visited1

/-- The two start states (`dijkstra.go` lines 38-49): one per orientation,
both with length 0 and bend count 0, parent −1. -/
def dijkstraInitStates (srcNode : ℕ) : List DijkstraState :=
  [Orientation.horizontal, Orientation.vertical].map
    (fun dir => ⟨srcNode, 0, 0, dir, -1⟩)

/-- The initial best map built in the same seeding loop. -/
def dijkstraInitBest (srcNode : ℕ) : List (StateKey × DijkstraState) :=
  (dijkstraInitStates srcNode).map (fun s => (⟨s.nodeId, s.direction⟩, s))

/-- Total adjacency size, used only to size the loop fuel. -/
def totalAdjLen (adj : List (List RoutingGraphEdge)) : ℕ :=
  (adj.map List.length).sum

/-- A loop-iteration bound: at most `2 + (2 + 2·E)·E` states are ever pushed
(two seeds; at most `2 + 2·E` unvisited pops, each pushing at most its row),
and every iteration pops one state. -/
def dijkstraFuel (rg : RoutingGraph) : ℕ :=
  (3 + 2 * totalAdjLen rg.adj) * (totalAdjLen rg.adj + 1) + 4

/-- `dijkstra.go` `dijkstraRoute`: shortest path from `srcNode` to `dstNode`
(node IDs excluding the source, including the destination); `[]` for "no
path" (Go `nil`). -/
def dijkstraRoute (rg : RoutingGraph) (srcNode dstNode : ℕ) : List ℕ :=
  if srcNode = dstNode then [srcNode]
  else
    dijkstraLoop rg srcNode dstNode (dijkstraFuel rg)
      (dijkstraInitStates srcNode) (dijkstraInitBest srcNode) [] []

/-- `d2wueortho/gridroute.go` `face` (standalone L/Z router). -/
inductive Face where
  | right
  | left
  | top
  | bottom
deriving DecidableEq, Repr

/-- `d2wueortho/gridroute.go` `portInfo`.  The `edge`/`obj` pointers are
replaced by the data the spreading code reads from them: the owning object's
box and the neighbor object's box (`neighborObj(p)` resolves to
`p.edge.Dst` or `p.edge.Src`, of which only the box center is read). -/
structure PortInfo where
  obj : Rect
  neighbor : Rect
  face : Face
  pos : Option Point
  isSource : Bool
deriving DecidableEq, Repr

/-- `gridroute.go` `facePoint`: point on a face at parameter `t`, with the
corner-gap fallback (`if usable < 0 { usable = obj.Width; cornerGap = 0 }`).
The `minClearance` and `numPorts` parameters are accepted, as in the Go
signature, and never read. -/
def facePoint (obj : Rect) (f : Face) (t cornerGap minClearance : ℚ)
    (numPorts : ℕ) : Point :=
  let left := obj.x
  let top := obj.y
  let right := left + obj.w
  let bottom := top + obj.h
  match f with
  | Face.top =>
    let usable := obj.w - 2 * cornerGap
    let uc := if usable < 0 then (obj.w, (0 : ℚ)) else (usable, cornerGap)
    ⟨left + uc.2 + uc.1 * t, top⟩
  | Face.bottom =>
    let usable := obj.w - 2 * cornerGap
    let uc := if usable < 0 then (obj.w, (0 : ℚ)) else (usable, cornerGap)
    ⟨left + uc.2 + uc.1 * t, bottom⟩
  | Face.left =>
    let usable := obj.h - 2 * cornerGap
    let uc := if usable < 0 then (obj.h, (0 : ℚ)) else (usable, cornerGap)
    ⟨left, top + uc.2 + uc.1 * t⟩
  | Face.right =>
    let usable := obj.h - 2 * cornerGap
    let uc := if usable < 0 then (obj.h, (0 : ℚ)) else (usable, cornerGap)
    ⟨right, top + uc.2 + uc.1 * t⟩

/-- The comparator of `sortAndSpreadPorts`'s `sort.Slice`: by the neighbor's
center X on top/bottom faces, by its center Y on left/right faces. -/
def portLess (f : Face) (a b : PortInfo) : Bool :=
  match f with
  | Face.top | Face.bottom => a.neighbor.centerX < b.neighbor.centerX
  | Face.left | Face.right => a.neighbor.centerY < b.neighbor.centerY

/-- The sort of `sortAndSpreadPorts` (`sort.Slice`, modelled as a stable sort
under the same comparator; Go's `sort.Slice` does not document its tie order,
and nothing proved here depends on it). -/
def sortPorts (ports : List PortInfo) (f : Face) : List PortInfo :=
  ports.mergeSort (fun a b => ¬ (portLess f b a = true))

/-- `ports[0].obj` as read by `sortAndSpreadPorts` after sorting. -/
def firstObj (l : List PortInfo) : Rect :=
  ((l.head?).map (fun p => p.obj)).getD ⟨0, 0, 0, 0⟩

/-- `gridroute.go` `sortAndSpreadPorts`: sort the ports of one (node, face)
group by neighbor position, then assign each the position
`facePoint(obj, f, (i+1)/(n+1), 12, 8, n)`. -/
def sortAndSpreadPorts (ports : List PortInfo) (f : Face) : List PortInfo :=
  if ports.isEmpty then ports
  else
    let sorted := sortPorts ports f
    let obj := firstObj sorted
    let n := sorted.length
    let minClearance : ℚ := 8
    let cornerGap : ℚ := 12
    sorted.enum.map (fun ip =>
      { ip.2 with pos := some (facePoint obj f
          ((ip.1 + 1 : ℚ) / ((n : ℚ) + 1)) cornerGap minClearance n) })

/-- The face's span (width for top/bottom, height for left/right) — a
statement-side abbreviation for the characterization of `facePoint`. -/
def faceSpan (obj : Rect) (f : Face) : ℚ :=
  match f with
  | Face.top | Face.bottom => obj.w
  | Face.left | Face.right => obj.h

/-- Closed form of a face position: offset `gap + span·t` along the face —
a statement-side abbreviation for the characterization of `facePoint`. -/
def facePointSpread (obj : Rect) (f : Face) (gap span t : ℚ) : Point :=
  match f with
  | Face.top => ⟨obj.x + gap + span * t, obj.y⟩
  | Face.bottom => ⟨obj.x + gap + span * t, obj.y + obj.h⟩
  | Face.left => ⟨obj.x, obj.y + gap + span * t⟩
  | Face.right => ⟨obj.x + obj.w, obj.y + gap + span * t⟩

/-- `types.go` `Port`: an edge endpoint on a box boundary. -/
structure Port where
  nodeIdx : ℕ
  edgeIdx : ℕ
  side : Direction
  pos : Point
  isSrc : Bool
deriving DecidableEq, Repr

/-- `types.go` `PortAssignment`: one source and one destination port per
edge. -/
structure PortAssignment where
  srcPorts : List Port
  dstPorts : List Port
deriving DecidableEq, Repr

/-- `boxes[idx]` (in-range at all modelled call sites; Go would panic
otherwise). -/
def boxAt (boxes : List Rect) (i : ℕ) : Rect :=
  (boxes[i]?).getD ⟨0, 0, 0, 0⟩

/-- The body of the `alignNearlyAlignedPorts` loop for one edge
(`portassign.go` lines 259-311): for a Bottom↔Top pair whose boxes overlap
horizontally, both ports' X are set to the overlap midpoint, but only when
that midpoint lies within the inner 10%–90% of both boxes; symmetrically for
a Right↔Left pair and Y.  Each iteration touches only its own edge's two
ports, so the loop is a per-edge map. -/
def alignPortPair (boxes : List Rect) (src dst : Port) : Port × Port :=
  let srcBox := boxAt boxes src.nodeIdx
  let dstBox := boxAt boxes dst.nodeIdx
  let isVertical := (src.side = Direction.bottom ∧ dst.side = Direction.top) ∨
    (src.side = Direction.top ∧ dst.side = Direction.bottom)
  let sd1 :=
    if isVertical then
      let overlapLeft := max srcBox.left dstBox.left
      let overlapRight := min srcBox.right dstBox.right
      if overlapRight > overlapLeft then
        let targetX := (overlapLeft + overlapRight) / 2
        let srcMinX := srcBox.left + srcBox.w * (1/10)
        let srcMaxX := srcBox.left + srcBox.w * (9/10)
        let dstMinX := dstBox.left + dstBox.w * (1/10)
        let dstMaxX := dstBox.left + dstBox.w * (9/10)
        if targetX ≥ srcMinX ∧ targetX ≤ srcMaxX ∧
           targetX ≥ dstMinX ∧ targetX ≤ dstMaxX then
          ({ src with pos := ⟨targetX, src.pos.y⟩ },
           { dst with pos := ⟨targetX, dst.pos.y⟩ })
        else (src, dst)
      else (src, dst)
    else (src, dst)
  let src1 := sd1.1
  let dst1 := sd1.2
  let isHorizontal := (src1.side = Direction.right ∧ dst1.side = Direction.left) ∨
    (src1.side = Direction.left ∧ dst1.side = Direction.right)
  if isHorizontal then
    let overlapTop := max srcBox.top dstBox.top
    let overlapBottom := min srcBox.bottom dstBox.bottom
    if overlapBottom > overlapTop then
      let targetY := (overlapTop + overlapBottom) / 2
      let srcMinY := srcBox.top + srcBox.h * (1/10)
      let srcMaxY := srcBox.top + srcBox.h * (9/10)
      let dstMinY := dstBox.top + dstBox.h * (1/10)
      let dstMaxY := dstBox.top + dstBox.h * (9/10)
      if targetY ≥ srcMinY ∧ targetY ≤ srcMaxY ∧
         targetY ≥ dstMinY ∧ targetY ≤ dstMaxY then
        ({ src1 with pos := ⟨src1.pos.x, targetY⟩ },
         { dst1 with pos := ⟨dst1.pos.x, targetY⟩ })
      else (src1, dst1)
    else (src1, dst1)
  else (src1, dst1)

/-- `portassign.go` `alignNearlyAlignedPorts`: adjust the port pair of every
edge (the Go loop mutates `pa.SrcPorts[i]` / `pa.DstPorts[i]` in place). -/
def alignNearlyAlignedPorts (boxes : List Rect) (pa : PortAssignment) :
    PortAssignment :=
  let pairs := (pa.srcPorts.zip pa.dstPorts).map
    (fun sd => alignPortPair boxes sd.1 sd.2)
  ⟨pairs.map (fun sd => sd.1), pairs.map (fun sd => sd.2)⟩

/-- Statement-side abbreviation: the edge's ports form a Bottom↔Top pair. -/
def vertPair (src dst : Port) : Prop :=
  (src.side = Direction.bottom ∧ dst.side = Direction.top) ∨
  (src.side = Direction.top ∧ dst.side = Direction.bottom)

/-- Statement-side abbreviation: the edge's ports form a Right↔Left pair. -/
def horizPair (src dst : Port) : Prop :=
  (src.side = Direction.right ∧ dst.side = Direction.left) ∨
  (src.side = Direction.left ∧ dst.side = Direction.right)

/-- The x-midpoint of the horizontal overlap of the two endpoint boxes. -/
def vertTX (boxes : List Rect) (src dst : Port) : ℚ :=
  (max (boxAt boxes src.nodeIdx).left (boxAt boxes dst.nodeIdx).left +
   min (boxAt boxes src.nodeIdx).right (boxAt boxes dst.nodeIdx).right) / 2

/-- The y-midpoint of the vertical overlap of the two endpoint boxes. -/
def horizTY (boxes : List Rect) (src dst : Port) : ℚ :=
  (max (boxAt boxes src.nodeIdx).top (boxAt boxes dst.nodeIdx).top +
   min (boxAt boxes src.nodeIdx).bottom (boxAt boxes dst.nodeIdx).bottom) / 2

/-- The vertical-case alignment fires: the boxes overlap horizontally and the
overlap midpoint lies within the inner 10%–90% of both boxes. -/
@[reducible] def vertApplies (boxes : List Rect) (src dst : Port) : Prop :=
  max (boxAt boxes src.nodeIdx).left (boxAt boxes dst.nodeIdx).left <
    min (boxAt boxes src.nodeIdx).right (boxAt boxes dst.nodeIdx).right ∧
  vertTX boxes src dst ≥
    (boxAt boxes src.nodeIdx).left + (boxAt boxes src.nodeIdx).w * (1/10) ∧
  vertTX boxes src dst ≤
    (boxAt boxes src.nodeIdx).left + (boxAt boxes src.nodeIdx).w * (9/10) ∧
  vertTX boxes src dst ≥
    (boxAt boxes dst.nodeIdx).left + (boxAt boxes dst.nodeIdx).w * (1/10) ∧
  vertTX boxes src dst ≤
    (boxAt boxes dst.nodeIdx).left + (boxAt boxes dst.nodeIdx).w * (9/10)

/-- The horizontal-case alignment fires. -/
@[reducible] def horizApplies (boxes : List Rect) (src dst : Port) : Prop :=
  max (boxAt boxes src.nodeIdx).top (boxAt boxes dst.nodeIdx).top <
    min (boxAt boxes src.nodeIdx).bottom (boxAt boxes dst.nodeIdx).bottom ∧
  horizTY boxes src dst ≥
    (boxAt boxes src.nodeIdx).top + (boxAt boxes src.nodeIdx).h * (1/10) ∧
  horizTY boxes src dst ≤
    (boxAt boxes src.nodeIdx).top + (boxAt boxes src.nodeIdx).h * (9/10) ∧
  horizTY boxes src dst ≥
    (boxAt boxes dst.nodeIdx).top + (boxAt boxes dst.nodeIdx).h * (1/10) ∧
  horizTY boxes src dst ≤
    (boxAt boxes dst.nodeIdx).top + (boxAt boxes dst.nodeIdx).h * (9/10)

-- ===== RouteEdges pipeline (router.go RouteEdges and its stages) =====

/-- `math.Round`: round half away from zero. -/
def goRound (x : ℚ) : ℤ :=
  if x ≥ 0 then ⌊x + 1/2⌋ else -⌊-x + 1/2⌋

/-- The coordinate snap of `buildRoutingGraph`: `math.Round(p*100) / 100`. -/
def snap01 (x : ℚ) : ℚ := (goRound (x * 100) : ℚ) / 100

/-- The `epsilon` constant of `routinggraph.go` (0.5), also the `eps` of
`dominates`. -/
def epsilon : ℚ := 1/2

/-- The adjacent-duplicate removal loop of `sortedUniqueFloats`. -/
def dedupAdj : ℚ → List ℚ → List ℚ
  | _, [] => []
  | prev, x :: r => if x = prev then dedupAdj prev r else x :: dedupAdj x r

/-- `router.go` `sortedUniqueFloats`: sort, then drop adjacent duplicates. -/
def sortedUniqueFloats (vals : List ℚ) : List ℚ :=
  match vals.mergeSort (fun a b => a ≤ b) with
  | [] => []
  | v :: r => v :: dedupAdj v r

/-- `types.go` `Channel`: a routing corridor rectangle plus orientation. -/
structure Channel where
  rect : Rect
  orientation : Orientation
deriving DecidableEq, Repr

/-- Modelled from the spec (§4.F): the `d2gridrouter` channel-construction
file is not under `src/`; the definitions below follow the identical
`d2wueortho` implementation that is (`src/unnamed/part_001`,
`isVerticalStripFree`). -/
def isVerticalStripFree (x y1 y2 : ℚ) (boxes : List Rect) : Bool :=
  boxes.all (fun b =>
    !(decide (x > b.left) && decide (x < b.right) &&
      decide (y2 > b.top) && decide (y1 < b.bottom)))

/-- Modelled from the spec (§4.F), after `isHorizontalStripFree` of
`src/unnamed/part_001`. -/
def isHorizontalStripFree (y x1 x2 : ℚ) (boxes : List Rect) : Bool :=
  boxes.all (fun b =>
    !(decide (y > b.top) && decide (y < b.bottom) &&
      decide (x2 > b.left) && decide (x1 < b.right)))

/-- Modelled from the spec (§4.F step 4), after `dominates` of
`src/unnamed/part_001`. -/
def dominates (a b : Channel) : Bool :=
  if a.orientation = Orientation.vertical then
    decide (a.rect.left - epsilon ≤ b.rect.left) &&
    decide (a.rect.right + epsilon ≥ b.rect.right) &&
    decide (a.rect.top - epsilon ≤ b.rect.top) &&
    decide (a.rect.bottom + epsilon ≥ b.rect.bottom) &&
    decide (a.rect.w > b.rect.w + epsilon)
  else
    decide (a.rect.top - epsilon ≤ b.rect.top) &&
    decide (a.rect.bottom + epsilon ≥ b.rect.bottom) &&
    decide (a.rect.left - epsilon ≤ b.rect.left) &&
    decide (a.rect.right + epsilon ≥ b.rect.right) &&
    decide (a.rect.h > b.rect.h + epsilon)

/-- `channels[i]` (in-range at every call site). -/
def chAt (l : List Channel) (i : ℕ) : Channel :=
  (l[i]?).getD ⟨⟨0, 0, 0, 0⟩, Orientation.horizontal⟩

/-- The inner `j` loop of `pruneChannels` for one undominated `i`. -/
def pruneInner (channels : List Channel) (i : ℕ) (dom : List Bool) : List Bool :=
  (List.range channels.length).foldl
    (fun d j =>
      if i = j ∨ (d[j]?).getD false then d
      else if (chAt channels i).orientation = (chAt channels j).orientation ∧
          dominates (chAt channels i) (chAt channels j) = true then
        modAt d j (fun _ => true)
      else d)
    dom

/-- Modelled from the spec (§4.F step 4), after `pruneChannels` of
`src/unnamed/part_001`: drop channels dominated by an undominated channel. -/
def pruneChannels (channels : List Channel) : List Channel :=
  if channels.length ≤ 1 then channels
  else
    let dom := (List.range channels.length).foldl
      (fun d i => if (d[i]?).getD false then d else pruneInner channels i d)
      (List.replicate channels.length false)
    (channels.enum.filter (fun ic => !((dom[ic.1]?).getD false))).map Prod.snd

/-- Modelled from the spec (§4.F steps 1-3), after `findChannels` of
`src/unnamed/part_001`: maximal free vertical/horizontal strips between
sorted unique box boundaries, pruned of dominated channels. -/
def findChannels (boxes : List Rect) (bbox : Rect) : List Channel :=
  let xBounds := sortedUniqueFloats
    ((boxes.flatMap (fun b => [b.left, b.right])) ++ [bbox.left, bbox.right])
  let yBounds := sortedUniqueFloats
    ((boxes.flatMap (fun b => [b.top, b.bottom])) ++ [bbox.top, bbox.bottom])
  let vert := (xBounds.zip xBounds.tail).filterMap (fun x12 =>
    if x12.2 - x12.1 < 1 then none
    else if isVerticalStripFree ((x12.1 + x12.2) / 2) bbox.top bbox.bottom boxes then
      some ⟨⟨x12.1, bbox.top, x12.2 - x12.1, bbox.h⟩, Orientation.vertical⟩
    else none)
  let horiz := (yBounds.zip yBounds.tail).filterMap (fun y12 =>
    if y12.2 - y12.1 < 1 then none
    else if isHorizontalStripFree ((y12.1 + y12.2) / 2) bbox.left bbox.right boxes then
      some ⟨⟨bbox.left, y12.1, bbox.w, y12.2 - y12.1⟩, Orientation.horizontal⟩
    else none)
  pruneChannels (vert ++ horiz)

/-- `types.go` `Segment` (Go fields `Start`/`End`; `end` is a reserved word in
Lean, so the second endpoint is named `stop`). -/
structure Segment where
  start : Point
  stop : Point
  orientation : Orientation
deriving DecidableEq, Repr

/-- Modelled from the spec (§4.F representatives), after the per-channel part
of `buildRepresentatives` of `src/unnamed/part_001`: the representative of a
channel sits at its center, unless a port lies strictly inside the channel and
closer to the center. -/
def repForChannel (allPorts : List Port) (ch : Channel) : Segment :=
  if ch.orientation = Orientation.vertical then
    let centerX := ch.rect.centerX
    let best := allPorts.foldl
      (fun (acc : ℚ × ℚ) p =>
        if p.pos.x > ch.rect.left ∧ p.pos.x < ch.rect.right ∧
            |p.pos.x - centerX| < acc.2 then
          (p.pos.x, |p.pos.x - centerX|)
        else acc)
      (centerX, ch.rect.w / 2)
    ⟨⟨best.1, ch.rect.top⟩, ⟨best.1, ch.rect.bottom⟩, Orientation.vertical⟩
  else
    let centerY := ch.rect.centerY
    let best := allPorts.foldl
      (fun (acc : ℚ × ℚ) p =>
        if p.pos.y > ch.rect.top ∧ p.pos.y < ch.rect.bottom ∧
            |p.pos.y - centerY| < acc.2 then
          (p.pos.y, |p.pos.y - centerY|)
        else acc)
      (centerY, ch.rect.h / 2)
    ⟨⟨ch.rect.left, best.1⟩, ⟨ch.rect.right, best.1⟩, Orientation.horizontal⟩

/-- Modelled from the spec (§4.F connectors), after `extendVerticalFromPort`
of `src/unnamed/part_001`. -/
def extendVerticalFromPort (p : Port) (channels : List Channel) : Option Segment :=
  channels.findSome? (fun ch =>
    if ch.orientation = Orientation.horizontal ∧
        p.pos.x ≥ ch.rect.left ∧ p.pos.x ≤ ch.rect.right then
      if p.side = Direction.top ∧ ch.rect.bottom ≤ p.pos.y + 1 then
        some ⟨⟨p.pos.x, ch.rect.centerY⟩, ⟨p.pos.x, p.pos.y⟩, Orientation.vertical⟩
      else if p.side = Direction.bottom ∧ ch.rect.top ≥ p.pos.y - 1 then
        some ⟨⟨p.pos.x, p.pos.y⟩, ⟨p.pos.x, ch.rect.centerY⟩, Orientation.vertical⟩
      else none
    else none)

/-- Modelled from the spec (§4.F connectors), after `extendHorizontalFromPort`
of `src/unnamed/part_001`. -/
def extendHorizontalFromPort (p : Port) (channels : List Channel) : Option Segment :=
  channels.findSome? (fun ch =>
    if ch.orientation = Orientation.vertical ∧
        p.pos.y ≥ ch.rect.top ∧ p.pos.y ≤ ch.rect.bottom then
      if p.side = Direction.left ∧ ch.rect.right ≤ p.pos.x + 1 then
        some ⟨⟨ch.rect.centerX, p.pos.y⟩, ⟨p.pos.x, p.pos.y⟩, Orientation.horizontal⟩
      else if p.side = Direction.right ∧ ch.rect.left ≥ p.pos.x - 1 then
        some ⟨⟨p.pos.x, p.pos.y⟩, ⟨ch.rect.centerX, p.pos.y⟩, Orientation.horizontal⟩
      else none
    else none)

/-- The coverage test of `addPortSegments`: the port lies on some existing
representative. -/
def portCovered (segments : List Segment) (p : Port) : Bool :=
  segments.any (fun s =>
    decide ((s.orientation = Orientation.vertical ∧ s.start.x = p.pos.x ∧
        p.pos.y ≥ s.start.y ∧ p.pos.y ≤ s.stop.y) ∨
      (s.orientation = Orientation.horizontal ∧ s.start.y = p.pos.y ∧
        p.pos.x ≥ s.start.x ∧ p.pos.x ≤ s.stop.x)))

/-- Modelled from the spec (§4.F connectors), after `addPortSegments` of
`src/unnamed/part_001`.  The Go loop appends to the segment list it is
scanning, so each port is tested against the segments grown so far. -/
def addPortSegments (segments : List Segment) (ports : PortAssignment)
    (channels : List Channel) : List Segment :=
  (ports.srcPorts ++ ports.dstPorts).foldl
    (fun segs p =>
      if portCovered segs p then segs
      else if p.side = Direction.top ∨ p.side = Direction.bottom then
        match extendVerticalFromPort p channels with
        | some s => segs ++ [s]
        | none => segs
      else
        match extendHorizontalFromPort p channels with
        | some s => segs ++ [s]
        | none => segs)
    segments

/-- Modelled from the spec (§4.F), after `buildRepresentatives` of
`src/unnamed/part_001`. -/
def buildRepresentatives (channels : List Channel) (ports : PortAssignment) :
    List Segment :=
  addPortSegments (channels.map (repForChannel (ports.srcPorts ++ ports.dstPorts)))
    ports channels

/-- Modelled from the spec (§4.F), after `sortSegmentPoints` of
`src/unnamed/part_001`: orient every segment so `start ≤ stop` on the varying
axis. -/
def sortSegmentPoints (segments : List Segment) : List Segment :=
  segments.map (fun s =>
    if s.orientation = Orientation.horizontal then
      if s.start.x > s.stop.x then ⟨s.stop, s.start, s.orientation⟩ else s
    else
      if s.start.y > s.stop.y then ⟨s.stop, s.start, s.orientation⟩ else s)

/-- The seen-set loop of `deduplicateSegments` (a Go `map` used as a set;
first occurrence kept). -/
def dedupSegsAux : List (Point × Point × Orientation) → List Segment → List Segment
  | _, [] => []
  | seen, s :: r =>
    if seen.contains (s.start, s.stop, s.orientation) then dedupSegsAux seen r
    else s :: dedupSegsAux ((s.start, s.stop, s.orientation) :: seen) r

/-- Modelled from the spec (§4.F), after `deduplicateSegments` of
`src/unnamed/part_001`. -/
def deduplicateSegments (segments : List Segment) : List Segment :=
  dedupSegsAux [] segments

/-- The edge weight `math.Hypot(dx, dy)` of `buildRoutingGraph`.  Consecutive
nodes along one representative agree on the fixed axis, where `hypot`
degenerates to the absolute difference on the varying axis, which this exact
rational model returns; for the near-degenerate case of endpoints that differ
on both axes (each by less than the 0.5 tolerance) the true `hypot` is
irrational and is modelled by the L1 length. -/
def hypotQ (dx dy : ℚ) : ℚ :=
  if dx = 0 then |dy| else if dy = 0 then |dx| else |dx| + |dy|

/-- The `addNode` closure of `buildRoutingGraph`: snap, then insert into the
node list unless a node at the snapped position exists.  (The Go `nodeMap`
keyed by snapped position is in bijection with the node list, so membership is
tested on the list itself.) -/
def addNode (nodes : List RoutingGraphNode) (p : Point) : List RoutingGraphNode :=
  let q : Point := ⟨snap01 p.x, snap01 p.y⟩
  if nodes.any (fun n => n.pos == q) then nodes
  else nodes ++ [⟨nodes.length, q⟩]

/-- The node-collection phase of `buildRoutingGraph`: port positions, then
H×V representative intersections (0.5 tolerance), then segment endpoints. -/
def graphNodes (segments : List Segment) (ports : PortAssignment) :
    List RoutingGraphNode :=
  let hSegs := segments.filter (fun s => s.orientation == Orientation.horizontal)
  let vSegs := segments.filter (fun s => s.orientation == Orientation.vertical)
  let n1 := (ports.srcPorts ++ ports.dstPorts).foldl (fun ns p => addNode ns p.pos) []
  let n2 := hSegs.foldl
    (fun ns h => vSegs.foldl
      (fun ns v =>
        if v.start.x ≥ h.start.x - epsilon ∧ v.start.x ≤ h.stop.x + epsilon ∧
            h.start.y ≥ v.start.y - epsilon ∧ h.start.y ≤ v.stop.y + epsilon then
          addNode ns ⟨v.start.x, h.start.y⟩
        else ns) ns)
    n1
  segments.foldl (fun ns s => addNode (addNode ns s.start) s.stop) n2

/-- `routinggraph.go` `edgePassesThroughBox`: an axis-aligned segment passes
through a box interior (0.5 tolerance, axis-aware). -/
def edgePassesThroughBox (a b : Point) (boxes : List Rect) : Bool :=
  boxes.any (fun box =>
    if |a.x - b.x| < epsilon then
      decide ((a.x + b.x) / 2 > box.left + epsilon ∧
        (a.x + b.x) / 2 < box.right - epsilon ∧
        max a.y b.y > box.top + epsilon ∧ min a.y b.y < box.bottom - epsilon)
    else if |a.y - b.y| < epsilon then
      decide ((a.y + b.y) / 2 > box.top + epsilon ∧
        (a.y + b.y) / 2 < box.bottom - epsilon ∧
        max a.x b.x > box.left + epsilon ∧ min a.x b.x < box.right - epsilon)
    else false)

/-- The `connectAlongSegment` closure of `buildRoutingGraph`: collect the
nodes lying on the segment, sort them along the varying axis (`sort.Slice`,
modelled as a stable sort), and connect consecutive pairs in both directions
unless degenerate or passing through a box. -/
def connectAlongSegment (nodes : List RoutingGraphNode) (boxes : List Rect)
    (adj : List (List RoutingGraphEdge)) (seg : Segment) :
    List (List RoutingGraphEdge) :=
  let onSeg := (nodes.filter (fun n =>
    if seg.orientation == Orientation.horizontal then
      decide (|n.pos.y - seg.start.y| < epsilon ∧
        n.pos.x ≥ seg.start.x - epsilon ∧ n.pos.x ≤ seg.stop.x + epsilon)
    else
      decide (|n.pos.x - seg.start.x| < epsilon ∧
        n.pos.y ≥ seg.start.y - epsilon ∧ n.pos.y ≤ seg.stop.y + epsilon))).map
    (fun n => n.id)
  let sorted := onSeg.mergeSort (fun i j =>
    if seg.orientation == Orientation.horizontal then
      (nodePos nodes i).x ≤ (nodePos nodes j).x
    else
      (nodePos nodes i).y ≤ (nodePos nodes j).y)
  (sorted.zip sorted.tail).foldl
    (fun ad ab =>
      let pa := nodePos nodes ab.1
      let pb := nodePos nodes ab.2
      let w := hypotQ (pb.x - pa.x) (pb.y - pa.y)
      if w < epsilon then ad
      else if edgePassesThroughBox pa pb boxes then ad
      else
        modAt (modAt ad ab.1 (fun row => row ++ [⟨ab.1, ab.2, w, seg.orientation⟩]))
          ab.2 (fun row => row ++ [⟨ab.2, ab.1, w, seg.orientation⟩]))
    adj

/-- Modelled from the spec (§4.G): the `d2gridrouter` routing-graph builder is
not under `src/`; this follows the identical-signature `buildRoutingGraph` of
`src/d2layouts/d2wueortho/routinggraph.go` (which ignores its `bbox`
argument). -/
def buildRoutingGraph (channels : List Channel) (ports : PortAssignment)
    (boxes : List Rect) (bbox : Rect) : RoutingGraph :=
  let _ := bbox
  let segments := deduplicateSegments (sortSegmentPoints (buildRepresentatives channels ports))
  let nodes := graphNodes segments ports
  ⟨nodes, segments.foldl (connectAlongSegment nodes boxes) (List.replicate nodes.length [])⟩

/-- `router.go` `computeBoundingBox`: bounding box of all node boxes with a
40-unit margin. -/
def computeBoundingBox (boxes : List Rect) : Rect :=
  match boxes with
  | [] => ⟨0, 0, 0, 0⟩
  | b0 :: rest =>
    let m := rest.foldl
      (fun (m : ℚ × ℚ × ℚ × ℚ) b =>
        (min m.1 b.x, min m.2.1 b.y, max m.2.2.1 b.right, max m.2.2.2 b.bottom))
      (b0.x, b0.y, b0.right, b0.bottom)
    ⟨m.1 - 40, m.2.1 - 40, (m.2.2.1 - m.1) + 2 * 40, (m.2.2.2 - m.2.1) + 2 * 40⟩

/-- `router.go` `distSq`. -/
def distSq (a b : Point) : ℚ :=
  (a.x - b.x) * (a.x - b.x) + (a.y - b.y) * (a.y - b.y)

/-- `router.go` `RoutingGraph.FindNearest`: id of the node with minimal
squared distance (first minimum wins), `-1` on an empty node list. -/
def findNearest (rg : RoutingGraph) (p : Point) : ℤ :=
  match rg.nodes with
  | [] => -1
  | n0 :: rest =>
    ((rest.foldl
      (fun (acc : ℕ × ℚ) n =>
        if distSq n.pos p < acc.2 then (n.id, distSq n.pos p) else acc)
      (0, distSq n0.pos p)).1 : ℤ)

/-- `ports.SrcPorts[i]` / `ports.DstPorts[i]` (in-range at every call site). -/
def portAt (l : List Port) (i : ℕ) : Port :=
  (l[i]?).getD ⟨0, 0, Direction.top, ⟨0, 0⟩, false⟩

/-- The `sameAxis` test of `edgeRoutingOrder`. -/
def sameAxisPorts (src dst : Port) : Bool :=
  decide ((src.side = Direction.bottom ∧ dst.side = Direction.top) ∨
    (src.side = Direction.top ∧ dst.side = Direction.bottom) ∨
    (src.side = Direction.right ∧ dst.side = Direction.left) ∨
    (src.side = Direction.left ∧ dst.side = Direction.right))

/-- `router.go` `edgeRoutingOrder`: edge indices sorted by (priority
ascending, Manhattan port distance descending).  The Go `sort.Slice` does not
document its tie order; the stable sort used here keeps ties in input order,
and nothing proved about the pipeline depends on the tie order. -/
def edgeRoutingOrder (ports : PortAssignment) (numEdges : ℕ) : List ℕ :=
  let priorities := (List.range numEdges).map (fun i =>
    let src := portAt ports.srcPorts i
    let dst := portAt ports.dstPorts i
    (i, (if sameAxisPorts src dst then 0 else 1 : ℕ),
      |src.pos.x - dst.pos.x| + |src.pos.y - dst.pos.y|))
  (priorities.mergeSort (fun a b =>
    if a.2.1 ≠ b.2.1 then a.2.1 ≤ b.2.1 else a.2.2 ≥ b.2.2)).map (fun t => t.1)

/-- The loop state of `routeAllEdges`: the routes array, the recorded
segments of committed edges, and the routing graph (whose weights the
penalty add/remove pair mutates and restores in place). -/
structure RouteState where
  routes : List EdgeRoute
  segs : List RoutedSeg
  rg : RoutingGraph
deriving Repr

/-- One iteration of the `routeAllEdges` loop (`router.go` lines 174-221) for
edge index `i`. -/
def routeOneEdge (ports : PortAssignment) (st : RouteState) (i : ℕ) : RouteState :=
  let srcPort := portAt ports.srcPorts i
  let dstPort := portAt ports.dstPorts i
  let srcId := findNearest st.rg srcPort.pos
  let dstId := findNearest st.rg dstPort.pos
  if srcId < 0 ∨ dstId < 0 ∨ srcId = dstId then
    { st with routes := modAt st.routes i (fun _ => ⟨i, [srcPort.pos, dstPort.pos]⟩) }
  else
    let rg1 := addCrossingPenalties st.rg st.segs
    let path := dijkstraRoute rg1 srcId.toNat dstId.toNat
    let rg2 := removeCrossingPenalties rg1 st.segs
    if path = [] then
      { routes := modAt st.routes i (fun _ => ⟨i, [srcPort.pos, dstPort.pos]⟩)
        segs := st.segs
        rg := rg2 }
    else
      let points := simplifyRoute
        ([srcPort.pos] ++ path.map (nodePos rg2.nodes) ++ [dstPort.pos])
      { routes := modAt st.routes i (fun _ => ⟨i, points⟩)
        segs := st.segs ++ (path.zip path.tail).map (fun ab => ⟨ab.1, ab.2⟩)
        rg := rg2 }

/-- `router.go` `routeAllEdges`: route every edge in priority order,
adding/removing crossing penalties around each Dijkstra run.  (Go
preallocates `routes` with zero values `{EdgeIdx: 0, Points: nil}`; the order
list is a permutation, so every entry is overwritten.) -/
def routeAllEdges (rg : RoutingGraph) (ports : PortAssignment) (numEdges : ℕ) :
    List EdgeRoute :=
  ((edgeRoutingOrder ports numEdges).foldl (routeOneEdge ports)
    ⟨List.replicate numEdges ⟨0, []⟩, [], rg⟩).routes

/-- The route-decomposition loop of `nudgeRoutes` (`nudging.go` lines 57-82):
split route `ri` into axis-aligned segments, skipping diagonals and segments
shorter than 0.5. -/
def decomposeRoute (ri : ℕ) (pts : List Point) : List EdgeSegment :=
  ((pts.zip pts.tail).enum).filterMap (fun ip =>
    let p1 := ip.2.1
    let p2 := ip.2.2
    if p1.y = p2.y then
      if max p1.x p2.x - min p1.x p2.x < 1/2 then none
      else some ⟨ri, ip.1, Orientation.horizontal, p1.y, min p1.x p2.x, max p1.x p2.x⟩
    else if p1.x = p2.x then
      if max p1.y p2.y - min p1.y p2.y < 1/2 then none
      else some ⟨ri, ip.1, Orientation.vertical, p1.x, min p1.y p2.y, max p1.y p2.y⟩
    else none)

/-- The bundle keys of `groupIntoBundles` (orientation plus the fixed
coordinate bucketed at tolerance 1), in first-occurrence order (the Go map
iteration order is unspecified; the grouping itself is order-independent). -/
def bundleKeys (segs : List EdgeSegment) : List (Orientation × ℤ) :=
  segs.foldl
    (fun ks s =>
      if ks.contains (s.orientation, goRound s.fixedCoord) then ks
      else ks ++ [(s.orientation, goRound s.fixedCoord)])
    []

/-- The inner scan of `findOverlappingSegments`: gather the segments whose
range starts before the growing group maximum (minus 0.5), and return the
rest in order. -/
def takeCluster : ℚ → List EdgeSegment → List EdgeSegment × List EdgeSegment
  | _, [] => ([], [])
  | gmax, s :: r =>
    if s.rangeMin < gmax - 1/2 then
      let res := takeCluster (max gmax s.rangeMax) r
      (s :: res.1, res.2)
    else
      let res := takeCluster gmax r
      (res.1, s :: res.2)

/-- The outer loop of `findOverlappingSegments` (fuel: one unit per group; the
input length bounds the number of groups). -/
def overlapClustersFuel : ℕ → List EdgeSegment → List (List EdgeSegment)
  | 0, _ => []
  | _, [] => []
  | fuel+1, s :: r =>
    let res := takeCluster s.rangeMax r
    (s :: res.1) :: overlapClustersFuel fuel res.2

/-- `nudging.go` `findOverlappingSegments`: sort by `rangeMin` (`sort.Slice`,
modelled stable) and group transitively overlapping ranges. -/
def findOverlappingSegments (segs : List EdgeSegment) : List (List EdgeSegment) :=
  let sorted := segs.mergeSort (fun a b => a.rangeMin ≤ b.rangeMin)
  overlapClustersFuel sorted.length sorted

/-- `nudging.go` `groupIntoBundles`: group segments by (orientation, bucketed
fixed coordinate), split each group into overlap clusters, and keep clusters
with more than one segment. -/
def groupIntoBundles (segs : List EdgeSegment) : List SegmentBundle :=
  (bundleKeys segs).foldl
    (fun bs k =>
      let group := segs.filter (fun s =>
        s.orientation == k.1 && goRound s.fixedCoord == k.2)
      if group.length ≤ 1 then bs
      else
        bs ++ ((findOverlappingSegments group).filterMap (fun cl =>
          match cl with
          | c :: _ :: _ => some ⟨k.1, c.fixedCoord, cl⟩
          | _ => none)))
    []

/-- `nudging.go` `findChannelBounds`: the perpendicular extent of the first
channel containing the bundle's fixed coordinate (tolerance 1), with a ±10
fallback. -/
def findChannelBounds (bundle : SegmentBundle) (channels : List Channel) : ℚ × ℚ :=
  match channels.findSome? (fun ch =>
    if bundle.orientation = Orientation.horizontal ∧
        ch.orientation = Orientation.horizontal ∧
        bundle.fixedCoord ≥ ch.rect.top - 1 ∧ bundle.fixedCoord ≤ ch.rect.bottom + 1 then
      some (ch.rect.top, ch.rect.bottom)
    else if bundle.orientation = Orientation.vertical ∧
        ch.orientation = Orientation.vertical ∧
        bundle.fixedCoord ≥ ch.rect.left - 1 ∧ bundle.fixedCoord ≤ ch.rect.right + 1 then
      some (ch.rect.left, ch.rect.right)
    else none) with
  | some b => b
  | none => (bundle.fixedCoord - 10, bundle.fixedCoord + 10)

/-- `dist[i]` of the longest-path pass (missing index reads 0). -/
def listGet (l : List ℚ) (i : ℕ) : ℚ := (l[i]?).getD 0

/-- `nudging.go` `constraintNudge`: chain constraint DAG (margin, spacing 10)
solved by longest-path relaxation in topological order; `none` when the
required width exceeds the channel (Go `ok=false`). -/
def constraintNudge (uniqueEdges : List ℕ) (bundle : SegmentBundle)
    (chMin chMax : ℚ) : Option (List (ℕ × ℚ)) :=
  let n := uniqueEdges.length
  let minSpacing : ℚ := 10
  let margin := minSpacing / 2
  let arcs : List (ℕ × ℕ × ℚ) :=
    [(n, 0, margin)] ++
    ((List.range (n - 1)).map (fun i => (i, i + 1, minSpacing))) ++
    [(n - 1, n + 1, margin)]
  let dist := ([n] ++ List.range n ++ [n + 1]).foldl
    (fun d u =>
      (arcs.filter (fun a => a.1 == u)).foldl
        (fun d a =>
          if listGet d u + a.2.2 > listGet d a.2.1 then
            modAt d a.2.1 (fun _ => listGet d u + a.2.2)
          else d)
        d)
    (List.replicate (n + 2) 0)
  let totalRequired := listGet dist (n + 1)
  if totalRequired > (chMax - chMin) + 1/2 then none
  else
    let offset := ((chMax - chMin) - totalRequired) / 2
    some (uniqueEdges.enum.map (fun ie =>
      (ie.2, chMin + offset + listGet dist ie.1 - bundle.fixedCoord)))

/-- `nudging.go` `evenDistribution`: the fallback spacing
`chMin + width·(i+1)/(n+1)` as an offset from the bundle's fixed coordinate. -/
def evenDistribution (uniqueEdges : List ℕ) (fixedCoord chMin channelWidth : ℚ) :
    List (ℕ × ℚ) :=
  uniqueEdges.enum.map (fun ie =>
    (ie.2, chMin + channelWidth * ((ie.1 : ℚ) + 1) / ((uniqueEdges.length : ℚ) + 1)
      - fixedCoord))

/-- The distinct edge indices of a bundle, in ascending order.  (Go collects
them from a map in unspecified order and sorts; without the Stage-4 ordering
the comparator falls back to the index order used here.) -/
def uniqueEdgesOf (bundle : SegmentBundle) : List ℕ :=
  (bundle.segments.foldl
    (fun es s => if es.contains s.edgeIdx then es else es ++ [s.edgeIdx]) []).mergeSort
    (fun a b => a ≤ b)

/-- The per-bundle body of the `nudgeRoutes` loop: skip singleton bundles and
channels narrower than 4; otherwise nudge by constraint solving with even
distribution as fallback. -/
def nudgeBundleStep (channels : List Channel) (routes : List EdgeRoute)
    (bundle : SegmentBundle) : List EdgeRoute :=
  if bundle.segments.length ≤ 1 then routes
  else
    let b := findChannelBounds bundle channels
    if b.2 - b.1 < 4 then routes
    else
      let uniq := uniqueEdgesOf bundle
      if uniq.length ≤ 1 then routes
      else
        applyNudgeOffsets routes bundle
          (match constraintNudge uniq bundle b.1 b.2 with
           | some m => m
           | none => evenDistribution uniq bundle.fixedCoord b.1 (b.2 - b.1))

/-- Modelled from the spec (§4.J): the three-argument `d2gridrouter`
`nudgeRoutes` called by `RouteEdges` is not under `src/`; this follows the
`d2wueortho` implementation (`src/d2layouts/d2wueortho/nudging.go`) with the
Stage-4 ordering parameter absent, so edges within a bundle are ordered by
index.  The `boxes` argument is unused, as in the `d2wueortho` source. -/
def nudgeRoutes (routes : List EdgeRoute) (channels : List Channel)
    (boxes : List Rect) : List EdgeRoute :=
  let _ := boxes
  if routes.length ≤ 1 then routes
  else
    (groupIntoBundles
      ((routes.enum).foldl (fun acc rp => acc ++ decomposeRoute rp.1 rp.2.points) [])).foldl
      (nudgeBundleStep channels) routes

/-- A `d2graph.Object` as read by the router: its box
(`TopLeft.X/Y`, `Width`, `Height`) and its parent pointer, modelled as an
optional index into the graph's container table (`none` is a nil parent). -/
structure GObject where
  box : Rect
  parentIdx : Option ℕ
deriving DecidableEq, Repr

/-- A `d2graph.Edge` as read and written by the router: endpoint object
indices (`Src`/`Dst` pointers), label text (`Label.Value`), optional label
position, and the route. -/
structure GEdge where
  src : ℕ
  dst : ℕ
  label : String
  labelPosition : Option String
  route : List Point
deriving DecidableEq, Repr

/-- The slice of a `d2graph.Graph` the router touches: objects, the
`ChildrenArray` of each container (object indices), and edges.  `RouteEdges`
receives the edges to route as a list of indices into `edges`. -/
structure Graph where
  objects : List GObject
  containers : List (List ℕ)
  edges : List GEdge
deriving DecidableEq, Repr

def objAt (g : Graph) (i : ℕ) : GObject := (g.objects[i]?).getD ⟨⟨0, 0, 0, 0⟩, none⟩

def edgeAt (g : Graph) (i : ℕ) : GEdge := (g.edges[i]?).getD ⟨0, 0, "", none, []⟩

/-- `parent.ChildrenArray`. -/
def childrenOf (g : Graph) (p : ℕ) : List ℕ := (g.containers[p]?).getD []

/-- `router.go` `findCommonParent`: the shared parent pointer of every
endpoint of every edge, or nil (`none` also models a common nil parent, which
the caller treats identically). -/
def findCommonParent (g : Graph) (es : List ℕ) : Option ℕ :=
  match es with
  | [] => none
  | e0 :: _ =>
    let parent := (objAt g (edgeAt g e0).src).parentIdx
    if es.all (fun ei =>
        ((objAt g (edgeAt g ei).src).parentIdx == parent) &&
        ((objAt g (edgeAt g ei).dst).parentIdx == parent)) then
      parent
    else none

/-- One iteration of the seen-set fallback loop of `RouteEdges` (lines
45-55): append the edge's unseen endpoints, source first. -/
def collectStep (g : Graph) (acc : List ℕ) (ei : ℕ) : List ℕ :=
  let e := edgeAt g ei
  let acc1 := if acc.contains e.src then acc else acc ++ [e.src]
  if acc1.contains e.dst then acc1 else acc1 ++ [e.dst]

/-- The seen-set fallback of `RouteEdges` (lines 44-56): the edge endpoints in
first-occurrence order (source before destination per edge). -/
def collectEndpoints (g : Graph) (es : List ℕ) : List ℕ :=
  es.foldl (collectStep g) []

/-- The `allObjects` collection of `RouteEdges` (lines 40-56): the common
parent's children when there are any, otherwise the endpoint union. -/
def allObjects (g : Graph) (es : List ℕ) : List ℕ :=
  match findCommonParent g es with
  | some p => if (childrenOf g p).length > 0 then childrenOf g p else collectEndpoints g es
  | none => collectEndpoints g es

/-- The `nodeIndex` map lookup (`nodeIndex[edge.Src]`): position of the
object in the collected list; a Go map read of a missing key yields the zero
value 0. -/
def nodeIndexOf (objs : List ℕ) (x : ℕ) : ℕ :=
  match objs.findIdx? (fun o => o == x) with
  | some i => i
  | none => 0

/-- `portassign.go` `determineSides`: dominant-direction side choice with
Z-avoidance (threshold 25%). -/
def determineSides (src dst : Rect) : Direction × Direction :=
  let dx := dst.centerX - src.centerX
  let dy := dst.centerY - src.centerY
  if |dx| > |dy| then
    ((if dx > 0 then Direction.right else Direction.left),
     if |dy| > |dx| * (1/4) then
       (if dy > 0 then Direction.top else Direction.bottom)
     else
       (if dx > 0 then Direction.left else Direction.right))
  else if |dy| > |dx| then
    ((if dy > 0 then Direction.bottom else Direction.top),
     if |dx| > |dy| * (1/4) then
       (if dx > 0 then Direction.left else Direction.right)
     else
       (if dy > 0 then Direction.top else Direction.bottom))
  else
    ((if dx > 0 then Direction.right else Direction.left),
     (if dy > 0 then Direction.top else Direction.bottom))

/-- Read of the `sideCount` map (`map[nodeSideKey]int`, zero value 0),
modelled as an association list with insertion shadowing. -/
def countOf (m : List ((ℕ × Direction) × ℕ)) (k : ℕ × Direction) : ℕ :=
  match m.find? (fun p => p.1 == k) with
  | some p => p.2
  | none => 0

/-- `sideCount[key]++`. -/
def bumpCount (m : List ((ℕ × Direction) × ℕ)) (k : ℕ × Direction) :
    List ((ℕ × Direction) × ℕ) :=
  (k, countOf m k + 1) :: m

/-- `portassign.go` `selfLoopSides`: least-populated side (first minimum in
Top, Right, Bottom, Left order) and its clockwise neighbor. -/
def selfLoopSides (nodeIdx : ℕ) (sideCount : List ((ℕ × Direction) × ℕ)) :
    Direction × Direction :=
  let best := [Direction.top, Direction.right, Direction.bottom, Direction.left].foldl
    (fun (acc : Direction × Option ℕ) s =>
      match acc.2 with
      | none => (s, some (countOf sideCount (nodeIdx, s)))
      | some bc =>
        if countOf sideCount (nodeIdx, s) < bc then
          (s, some (countOf sideCount (nodeIdx, s)))
        else acc)
    (Direction.right, none)
  (best.1,
   match best.1 with
   | Direction.top => Direction.right
   | Direction.right => Direction.bottom
   | Direction.bottom => Direction.left
   | Direction.left => Direction.top)

/-- Step 1 of `assignPorts` (`portassign.go` lines 31-74): choose sides per
edge (self-loops via `selfLoopSides`, others via `determineSides`), leaving
positions at the zero value. -/
def assignSides (boxes : List Rect) (g : Graph) (es : List ℕ) (objs : List ℕ) :
    PortAssignment :=
  let res := (es.enum).foldl
    (fun (acc : List Port × List Port × List ((ℕ × Direction) × ℕ)) ie =>
      let i := ie.1
      let e := edgeAt g ie.2
      let srcIdx := nodeIndexOf objs e.src
      let dstIdx := nodeIndexOf objs e.dst
      if e.src = e.dst then
        let sd := selfLoopSides srcIdx acc.2.2
        (acc.1 ++ [⟨srcIdx, i, sd.1, ⟨0, 0⟩, true⟩],
         acc.2.1 ++ [⟨srcIdx, i, sd.2, ⟨0, 0⟩, false⟩],
         bumpCount (bumpCount acc.2.2 (srcIdx, sd.1)) (srcIdx, sd.2))
      else
        let sd := determineSides (boxAt boxes srcIdx) (boxAt boxes dstIdx)
        (acc.1 ++ [⟨srcIdx, i, sd.1, ⟨0, 0⟩, true⟩],
         acc.2.1 ++ [⟨dstIdx, i, sd.2, ⟨0, 0⟩, false⟩],
         bumpCount (bumpCount acc.2.2 (srcIdx, sd.1)) (dstIdx, sd.2)))
    ([], [], [])
  ⟨res.1, res.2.1⟩

/-- The neighbor box a port is compared by in `sortPortsByNeighborAngle`
(the other endpoint's box; only `NodeIdx` of the paired port is read, which
later steps never change). -/
def neighborBoxOf (boxes : List Rect) (pa : PortAssignment) (q : Port) : Rect :=
  if q.isSrc then boxAt boxes (portAt pa.dstPorts q.edgeIdx).nodeIdx
  else boxAt boxes (portAt pa.srcPorts q.edgeIdx).nodeIdx

/-- The position `distributePortsOnSides` assigns to one port: its rank in
its (node, side) group — grouped over all ports in source-then-destination
order, sorted by the neighbor's center coordinate (`sort.Slice`, modelled
stable; a port is identified in its group by its unique (edge, is-source)
key) — placed at parameter `(rank+1)/(n+1)` along the side
(`distributeAlongSide`). -/
def portNewPos (boxes : List Rect) (pa : PortAssignment) (p : Port) : Point :=
  let group := (pa.srcPorts ++ pa.dstPorts).filter
    (fun q => q.nodeIdx == p.nodeIdx && q.side == p.side)
  let sorted := group.mergeSort (fun a b =>
    match p.side with
    | Direction.top | Direction.bottom =>
      (neighborBoxOf boxes pa a).centerX ≤ (neighborBoxOf boxes pa b).centerX
    | Direction.left | Direction.right =>
      (neighborBoxOf boxes pa a).centerY ≤ (neighborBoxOf boxes pa b).centerY)
  let rank := sorted.findIdx (fun q => q.edgeIdx == p.edgeIdx && q.isSrc == p.isSrc)
  let t := ((rank : ℚ) + 1) / ((group.length : ℚ) + 1)
  let box := boxAt boxes p.nodeIdx
  match p.side with
  | Direction.top => ⟨box.left + t * box.w, box.top⟩
  | Direction.bottom => ⟨box.left + t * box.w, box.bottom⟩
  | Direction.left => ⟨box.left, box.top + t * box.h⟩
  | Direction.right => ⟨box.right, box.top + t * box.h⟩

/-- `portassign.go` `distributePortsOnSides`: position every port along its
side (the Go per-group map iteration is order-independent: the groups
partition the ports and each port's new position depends only on its own
group). -/
def distributePortsOnSides (boxes : List Rect) (pa : PortAssignment) :
    PortAssignment :=
  ⟨pa.srcPorts.map (fun p => { p with pos := portNewPos boxes pa p }),
   pa.dstPorts.map (fun p => { p with pos := portNewPos boxes pa p })⟩

/-- `portassign.go` `assignPorts`: sides, then distribution, then
near-alignment. -/
def assignPorts (boxes : List Rect) (g : Graph) (es : List ℕ) (objs : List ℕ) :
    PortAssignment :=
  alignNearlyAlignedPorts boxes (distributePortsOnSides boxes (assignSides boxes g es objs))

/-- `label.InsideMiddleCenter.String()` — the `lib/label` package is an
external collaborator; only the constant's identity matters to the router. -/
def insideMiddleCenter : String := "INSIDE_MIDDLE_CENTER"

def Rect.center (r : Rect) : Point := ⟨r.centerX, r.centerY⟩

/-- The per-route body of the final `RouteEdges` loop (lines 98-110): set the
route (simplified when it has at least two points, otherwise the
center-to-center fallback — whose Go `TraceToShape` endpoint adjustment is an
external collaborator) and overwrite the label position iff the label text is
non-empty. -/
def updateRoutedEdge (g : Graph) (r : EdgeRoute) (e : GEdge) : GEdge :=
  { e with
    route :=
      if r.points.length ≥ 2 then simplifyRoute r.points
      else [Rect.center (objAt g e.src).box, Rect.center (objAt g e.dst).box]
    labelPosition :=
      if e.label ≠ "" then some insideMiddleCenter else e.labelPosition }

/-- The final loop of `RouteEdges`: apply every computed route to its edge
(`edges[route.EdgeIdx]`, mapped back to the graph's edge list through the
routed-index list). -/
def applyRoutes (g : Graph) (es : List ℕ) (routes : List EdgeRoute) : Graph :=
  { g with
    edges := routes.foldl
      (fun eds r => modAt eds ((es[r.edgeIdx]?).getD 0) (updateRoutedEdge g r))
      g.edges }

/-- The route computation of the non-error tail of `RouteEdges` (lines
62-93): boxes, bounding box, ports, channels, routing graph, per-edge
routing, nudging. -/
def pipelineRoutes (g : Graph) (es : List ℕ) : List EdgeRoute :=
  let objs := allObjects g es
  let boxes := objs.map (fun oi => (objAt g oi).box)
  let bbox := computeBoundingBox boxes
  let ports := assignPorts boxes g es objs
  let channels := findChannels boxes bbox
  nudgeRoutes (routeAllEdges (buildRoutingGraph channels ports boxes bbox) ports es.length)
    channels boxes

/-- The non-error tail of `RouteEdges` (lines 62-112): compute the routes,
then apply them to the edges. -/
def routeEdgesBody (g : Graph) (es : List ℕ) : Graph :=
  applyRoutes g es (pipelineRoutes g es)

/-- `router.go` `RouteEdges`: success immediately on an empty edge list; a
descriptive error iff the collected object list is empty; otherwise the full
pipeline (the Go context/logging parameters have no observable effect and are
dropped). -/
def RouteEdges (g : Graph) (es : List ℕ) : Except String Graph :=
  if es = [] then Except.ok g
  else if allObjects g es = [] then Except.error "grid router: no objects found"
  else Except.ok (routeEdgesBody g es)

/-- The concrete graph exercising `RouteEdges`: one 10×10 object with no
parent and two self-loop edges on it — edge 0 labeled with a pre-set label
position, edge 1 unlabeled. -/
def gW : Graph :=
  ⟨[⟨⟨0, 0, 10, 10⟩, none⟩], [],
   [⟨0, 0, "x", some "OUTSIDE_TOP", []⟩, ⟨0, 0, "", some "KEEP", []⟩]⟩

-- ==================== THEOREMS ====================

theorem simplifyRoute_head (ps : List Point) :
    (simplifyRoute ps).head? = ps.head? := by
  unfold simplifyRoute
  split
  · rfl
  · cases ps with
    | nil => simp at *
    | cons p rest =>
      simp only [dedupPoints]
      split
      · rfl
      · rfl

theorem dedupAux_last (l : List Point) :
    ∀ (prev q0 : Point), l.getLast? = some q0 →
      ∃ q, (prev :: dedupAux prev l).getLast? = some q ∧ closePt q q0 := by
  induction l with
  | nil => intro prev q0 h; simp at h
  | cons a t ih =>
    intro prev q0 h
    cases t with
    | nil =>
      simp at h
      subst h
      unfold dedupAux
      split
      · refine ⟨prev, by simp [dedupAux], ?_, ?_⟩
        · rename_i hc
          rw [Bool.and_eq_true] at hc
          unfold nearEq at hc
          have := of_decide_eq_true hc.1
          rw [abs_sub_comm] at this; exact this
        · rename_i hc
          rw [Bool.and_eq_true] at hc
          unfold nearEq at hc
          have := of_decide_eq_true hc.2
          rw [abs_sub_comm] at this; exact this
      · exact ⟨a, by simp [dedupAux], by constructor <;> simp⟩
    | cons b t' =>
      have hlast : (b :: t').getLast? = some q0 := by
        rw [List.getLast?_cons_cons] at h; exact h
      unfold dedupAux
      split
      · exact ih prev q0 hlast
      · obtain ⟨q, hq, hc⟩ := ih a q0 hlast
        refine ⟨q, ?_, hc⟩
        rw [List.getLast?_cons_cons]
        cases hda : dedupAux a (b :: t') with
        | nil =>
          rw [hda] at hq
          simp at hq
          simp [hq]
        | cons z zs =>
          rw [hda] at hq
          rw [List.getLast?_cons_cons] at hq ⊢
          exact hq

theorem snapToPrev_close (prev curr : Point) : closePt (snapToPrev prev curr) curr := by
  unfold snapToPrev closePt nearEq
  split
  · rename_i hc
    have := of_decide_eq_true hc
    constructor
    · simpa [abs_sub_comm] using this
    · simp
  · split
    · rename_i hc
      have := of_decide_eq_true hc
      constructor
      · simp
      · simpa [abs_sub_comm] using this
    · constructor <;> simp

theorem simplifyMid_last (prev : Point) (l : List Point) :
    ∀ q0, l.getLast? = some q0 →
      ∃ q, (simplifyMid prev l).getLast? = some q ∧ closePt q q0 := by
  induction prev, l using simplifyMid.induct with
  | case1 prev => intro q0 h; simp at h
  | case2 prev last =>
    intro q0 h
    simp at h
    subst h
    exact ⟨snapToPrev prev last, by simp [simplifyMid], snapToPrev_close prev last⟩
  | case3 prev curr next rest hcond ih =>
    intro q0 h
    rw [List.getLast?_cons_cons] at h
    rw [simplifyMid, if_pos hcond]
    exact ih q0 h
  | case4 prev curr next rest hcond c ih =>
    intro q0 h
    rw [List.getLast?_cons_cons] at h
    rw [simplifyMid, if_neg hcond]
    obtain ⟨q, hq, hc⟩ := ih q0 h
    refine ⟨q, ?_, hc⟩
    show (c :: simplifyMid c (next :: rest)).getLast? = some q
    cases hs : simplifyMid c (next :: rest) with
    | nil =>
      rw [hs] at hq; simp at hq
    | cons z zs =>
      rw [hs] at hq
      rw [List.getLast?_cons_cons]
      exact hq

theorem simplifyRoute_last (ps : List Point) (q0 : Point)
    (h : ps.getLast? = some q0) :
    ∃ q, (simplifyRoute ps).getLast? = some q ∧
      |q.x - q0.x| < 1 ∧ |q.y - q0.y| < 1 := by
  unfold simplifyRoute
  split
  · refine ⟨q0, h, by simp, by simp⟩
  · cases ps with
    | nil => simp at h
    | cons p rest =>
      have hd : ∃ q1, (p :: dedupAux p rest).getLast? = some q1 ∧ closePt q1 q0 := by
        cases rest with
        | nil =>
          simp at h
          subst h
          exact ⟨p, by simp [dedupAux], by constructor <;> simp⟩
        | cons b t =>
          rw [List.getLast?_cons_cons] at h
          exact dedupAux_last (b :: t) p q0 h
      obtain ⟨q1, hq1, hc1⟩ := hd
      simp only [dedupPoints]
      split
      · exact ⟨q1, hq1, by linarith [hc1.1, abs_nonneg (q1.x - q0.x)],
          by linarith [hc1.2]⟩
      · cases hda : dedupAux p rest with
        | nil =>
          rename_i hlen
          rw [hda] at hlen
          simp at hlen
        | cons z zs =>
          rw [hda] at hq1
          rw [List.getLast?_cons_cons] at hq1
          obtain ⟨q, hq, hc⟩ := simplifyMid_last p (z :: zs) q1 hq1
          refine ⟨q, ?_, ?_, ?_⟩
          · cases hs : simplifyMid p (z :: zs) with
            | nil => rw [hs] at hq; simp at hq
            | cons u us =>
              rw [hs] at hq
              rw [List.getLast?_cons_cons]
              exact hq
          · have h1 := hc.1
            have h2 := hc1.1
            calc |q.x - q0.x| ≤ |q.x - q1.x| + |q1.x - q0.x| := abs_sub_le _ _ _
              _ < 1/2 + 1/2 := by exact add_lt_add h1 h2
              _ = 1 := by norm_num
          · have h1 := hc.2
            have h2 := hc1.2
            calc |q.y - q0.y| ≤ |q.y - q1.y| + |q1.y - q0.y| := abs_sub_le _ _ _
              _ < 1/2 + 1/2 := by exact add_lt_add h1 h2
              _ = 1 := by norm_num

theorem dedupAux_length (l : List Point) :
    ∀ prev, (dedupAux prev l).length ≤ l.length := by
  induction l with
  | nil => intro prev; simp [dedupAux]
  | cons a t ih =>
    intro prev
    unfold dedupAux
    split
    · exact le_trans (ih prev) (by simp)
    · simpa using ih a

theorem simplifyMid_length (prev : Point) (l : List Point) :
    (simplifyMid prev l).length ≤ l.length := by
  induction prev, l using simplifyMid.induct with
  | case1 prev => simp [simplifyMid]
  | case2 prev last => simp [simplifyMid]
  | case3 prev curr next rest hcond ih =>
    rw [simplifyMid, if_pos hcond]
    exact le_trans ih (by simp)
  | case4 prev curr next rest hcond c ih =>
    rw [simplifyMid, if_neg hcond]
    show (c :: simplifyMid c (next :: rest)).length ≤ (curr :: next :: rest).length
    simpa using ih

theorem simplifyRoute_length (ps : List Point) :
    (simplifyRoute ps).length ≤ ps.length := by
  unfold simplifyRoute
  split
  · exact le_rfl
  · cases ps with
    | nil => simp [dedupPoints]
    | cons p rest =>
      simp only [dedupPoints]
      split
      · simpa using dedupAux_length rest p
      · cases hda : dedupAux p rest with
        | nil => simp [simplifyMid]
        | cons z zs =>
          have h1 := simplifyMid_length p (z :: zs)
          have h2 := dedupAux_length rest p
          rw [hda] at h2
          simp only [List.length_cons] at *
          omega

theorem modAt_length {α : Type} :
    ∀ (l : List α) (i : ℕ) (f : α → α), (modAt l i f).length = l.length
  | [], _, _ => rfl
  | _ :: _, 0, _ => rfl
  | _ :: l, n+1, f => by simp [modAt, modAt_length l n f]

theorem modAt_getElem? {α : Type} :
    ∀ (l : List α) (i : ℕ) (f : α → α) (j : ℕ), j ≠ i →
      (modAt l i f)[j]? = l[j]?
  | [], i, f, j, _ => by simp [modAt]
  | a :: t, 0, f, 0, h => absurd rfl h
  | a :: t, 0, f, j+1, _ => by simp [modAt]
  | a :: t, i+1, f, 0, _ => by simp [modAt]
  | a :: t, i+1, f, j+1, h => by
    simp only [modAt, List.getElem?_cons_succ]
    exact modAt_getElem? t i f j (fun e => h (by omega))

theorem modAt_getElem?_self {α : Type} :
    ∀ (l : List α) (i : ℕ) (g : α → α), (modAt l i g)[i]? = (l[i]?).map g
  | [], _, _ => by simp [modAt]
  | a :: t, 0, g => by simp [modAt]
  | a :: t, i+1, g => by simpa [modAt] using modAt_getElem?_self t i g

theorem modAt_head? {α : Type} (l : List α) (i : ℕ) (f : α → α) (h : 0 < i) :
    (modAt l i f).head? = l.head? := by
  rw [List.head?_eq_getElem?, List.head?_eq_getElem?]
  exact modAt_getElem? l i f 0 (by omega)

theorem modAt_getLast? {α : Type} (l : List α) (i : ℕ) (f : α → α)
    (h : i + 1 < l.length) :
    (modAt l i f).getLast? = l.getLast? := by
  rw [List.getLast?_eq_getElem?, List.getLast?_eq_getElem?, modAt_length]
  exact modAt_getElem? l i f (l.length - 1) (by omega)

theorem nudgeRouteUpdate_head (orient : Orientation) (offset : ℚ)
    (segIdx : ℕ) (r : EdgeRoute) :
    (nudgeRouteUpdate orient offset segIdx r).points.head? = r.points.head? := by
  unfold nudgeRouteUpdate
  split
  · rfl
  · rename_i hguard
    by_cases h0 : segIdx = 0
    · simp only [if_pos h0]
      by_cases hl : segIdx + 2 = r.points.length
      · simp [hl]
      · simp only [if_neg hl]
        exact modAt_head? _ _ _ (by omega)
    · simp only [if_neg h0]
      by_cases hl : segIdx + 2 = r.points.length
      · simp only [if_pos hl]
        exact modAt_head? _ _ _ (by omega)
      · simp only [if_neg hl]
        rw [modAt_head? _ _ _ (by omega)]
        exact modAt_head? _ _ _ (by omega)

theorem nudgeRouteUpdate_last (orient : Orientation) (offset : ℚ)
    (segIdx : ℕ) (r : EdgeRoute) :
    (nudgeRouteUpdate orient offset segIdx r).points.getLast? = r.points.getLast? := by
  unfold nudgeRouteUpdate
  split
  · rfl
  · rename_i hguard
    have hlen : segIdx + 1 < r.points.length := by omega
    by_cases h0 : segIdx = 0
    · simp only [if_pos h0]
      by_cases hl : segIdx + 2 = r.points.length
      · simp [hl]
      · simp only [if_neg hl]
        exact modAt_getLast? _ _ _ (by omega)
    · simp only [if_neg h0]
      by_cases hl : segIdx + 2 = r.points.length
      · simp only [if_pos hl]
        exact modAt_getLast? _ _ _ (by omega)
      · simp only [if_neg hl]
        rw [modAt_getLast? _ _ _ (by rw [modAt_length]; omega)]
        exact modAt_getLast? _ _ _ (by omega)

theorem nudgeSegStep_endpoints (offsets : List (ℕ × ℚ)) (orient : Orientation)
    (routes : List EdgeRoute) (seg : EdgeSegment) (j : ℕ) :
    ((nudgeSegStep offsets orient routes seg)[j]?).map (fun r => r.points.head?) =
      (routes[j]?).map (fun r => r.points.head?) ∧
    ((nudgeSegStep offsets orient routes seg)[j]?).map (fun r => r.points.getLast?) =
      (routes[j]?).map (fun r => r.points.getLast?) := by
  unfold nudgeSegStep
  by_cases hoff : |lookupQ offsets seg.edgeIdx| < 1/10
  · simp only [if_pos hoff]
    exact ⟨trivial, trivial⟩
  · simp only [if_neg hoff]
    by_cases hj : j = seg.edgeIdx
    · subst hj
      rw [modAt_getElem?_self]
      cases hx : routes[seg.edgeIdx]? with
      | none => exact ⟨rfl, rfl⟩
      | some r =>
        constructor <;> simp [nudgeRouteUpdate_head, nudgeRouteUpdate_last]
    · rw [modAt_getElem? _ _ _ _ hj]
      exact ⟨rfl, rfl⟩

theorem applyNudgeOffsets_endpoints (routes : List EdgeRoute)
    (bundle : SegmentBundle) (offsets : List (ℕ × ℚ)) (j : ℕ) :
    ((applyNudgeOffsets routes bundle offsets)[j]?).map (fun r => r.points.head?) =
      (routes[j]?).map (fun r => r.points.head?) ∧
    ((applyNudgeOffsets routes bundle offsets)[j]?).map (fun r => r.points.getLast?) =
      (routes[j]?).map (fun r => r.points.getLast?) := by
  unfold applyNudgeOffsets
  induction bundle.segments generalizing routes with
  | nil => exact ⟨rfl, rfl⟩
  | cons s segs ih =>
    simp only [List.foldl_cons]
    obtain ⟨ih1, ih2⟩ := ih (nudgeSegStep offsets bundle.orientation routes s)
    obtain ⟨h1, h2⟩ := nudgeSegStep_endpoints offsets bundle.orientation routes s j
    exact ⟨ih1.trans h1, ih2.trans h2⟩

/-- **C1, counterexample.**  The claim states that `simplifyRoute` never
mutates the coordinates of the last point of a route.  On the concrete route
`[(0,0), (0.3,5), (0.4,10)]` the interior point is dropped as near-collinear
and the trailing snap then rewrites the last point's x-coordinate from 0.4 to
0: the returned route is `[(0,0), (0,10)]`, whose last point differs from the
input's last point. -/
theorem claim_C1_counterexample :
    simplifyRoute [⟨0, 0⟩, ⟨3/10, 5⟩, ⟨2/5, 10⟩] = [⟨0, 0⟩, ⟨0, 10⟩] ∧
    ([(⟨0, 0⟩ : Point), ⟨3/10, 5⟩, ⟨2/5, 10⟩].getLast? = some ⟨2/5, 10⟩) ∧
    (⟨0, 10⟩ : Point) ≠ ⟨2/5, 10⟩ := by
  refine ⟨by with_unfolding_all decide, rfl, by with_unfolding_all decide⟩

/-- **C1, amended.**  `applyNudgeOffsets` never changes the first or the last
point of any route (their `head?`/`getLast?` are preserved for every route
index).  `simplifyRoute` never changes the first point; its last point is
preserved only up to sub-tolerance adjustment: the returned last point always
lies within 1 unit of the input's last point in each coordinate (one 0.5
dedup absorption plus one 0.5 snap), but, contrary to the claim, it is not
always exactly equal to it. -/
theorem claim_C1 :
    (∀ ps : List Point, (simplifyRoute ps).head? = ps.head?) ∧
    (∀ (ps : List Point) (q0 : Point), ps.getLast? = some q0 →
      ∃ q, (simplifyRoute ps).getLast? = some q ∧
        |q.x - q0.x| < 1 ∧ |q.y - q0.y| < 1) ∧
    (∀ (routes : List EdgeRoute) (bundle : SegmentBundle)
        (offsets : List (ℕ × ℚ)) (j : ℕ),
      ((applyNudgeOffsets routes bundle offsets)[j]?).map (fun r => r.points.head?) =
        (routes[j]?).map (fun r => r.points.head?) ∧
      ((applyNudgeOffsets routes bundle offsets)[j]?).map (fun r => r.points.getLast?) =
        (routes[j]?).map (fun r => r.points.getLast?)) :=
  ⟨simplifyRoute_head, simplifyRoute_last, applyNudgeOffsets_endpoints⟩

/-- **C1, witness.**  The amended theorem applied to a concrete three-point
route. -/
theorem claim_C1_witness :
    ∃ q, (simplifyRoute [⟨0, 0⟩, ⟨9, 0⟩, ⟨9, 7⟩]).getLast? = some q ∧
      |q.x - (9 : ℚ)| < 1 ∧ |q.y - (7 : ℚ)| < 1 :=
  claim_C1.2.1 [⟨0, 0⟩, ⟨9, 0⟩, ⟨9, 7⟩] ⟨9, 7⟩ rfl

/-- **C4, counterexample.**  `simplifyRoute` is not idempotent: on
`[(0,0), (0.3,0.6), (3,0.3), (3,5)]` the first application snaps the interior
bend to `(0,0.3)`, which the second application then removes as a
near-duplicate of the head, giving a strictly shorter route. -/
theorem claim_C4_counterexample :
    simplifyRoute (simplifyRoute [⟨0, 0⟩, ⟨3/10, 3/5⟩, ⟨3, 3/10⟩, ⟨3, 5⟩]) ≠
      simplifyRoute [⟨0, 0⟩, ⟨3/10, 3/5⟩, ⟨3, 3/10⟩, ⟨3, 5⟩] := by
  with_unfolding_all decide

theorem modAt_map_congr {α β : Type} (g : α → β) (f : α → α)
    (hgf : ∀ x, g (f x) = g x) :
    ∀ (l : List α) (i : ℕ), (modAt l i f).map g = l.map g
  | [], _ => rfl
  | a :: t, 0 => by simp [modAt, hgf]
  | a :: t, i+1 => by simp [modAt, modAt_map_congr g f hgf t i]

theorem modAt_comm {α : Type} (f g : α → α) :
    ∀ (l : List α) (i k : ℕ), i ≠ k →
      modAt (modAt l i f) k g = modAt (modAt l k g) i f
  | [], _, _, _ => rfl
  | a :: t, 0, 0, h => absurd rfl h
  | a :: t, 0, k+1, _ => by simp [modAt]
  | a :: t, i+1, 0, _ => by simp [modAt]
  | a :: t, i+1, k+1, h => by
    simp only [modAt, List.cons.injEq, true_and]
    exact modAt_comm f g t i k (by omega)

theorem modAt_modAt_same {α : Type} (f g : α → α) :
    ∀ (l : List α) (i : ℕ),
      modAt (modAt l i f) i g = modAt l i (fun x => g (f x))
  | [], _ => rfl
  | a :: t, 0 => rfl
  | a :: t, i+1 => by simp [modAt, modAt_modAt_same f g t i]

theorem modAt_id {α : Type} (f : α → α) (hf : ∀ x, f x = x) :
    ∀ (l : List α) (i : ℕ), modAt l i f = l
  | [], _ => rfl
  | a :: t, 0 => by simp [modAt, hf]
  | a :: t, i+1 => by simp [modAt, modAt_id f hf t i]

theorem adjShape_bumpWeight (adj : List (List RoutingGraphEdge)) (i j : ℕ) (δ : ℚ) :
    adjShape (bumpWeight adj i j δ) = adjShape adj := by
  unfold adjShape bumpWeight
  apply modAt_map_congr
  intro row
  apply modAt_map_congr
  intro e
  rfl

theorem bumpWeight_comm (adj : List (List RoutingGraphEdge)) (i j k l : ℕ)
    (δ δ' : ℚ) :
    bumpWeight (bumpWeight adj i j δ) k l δ' =
      bumpWeight (bumpWeight adj k l δ') i j δ := by
  unfold bumpWeight
  by_cases hik : i = k
  · subst hik
    rw [modAt_modAt_same, modAt_modAt_same]
    congr 1
    funext row
    by_cases hjl : j = l
    · subst hjl
      rw [modAt_modAt_same, modAt_modAt_same]
      congr 1
      funext e
      show ({ e with weight := e.weight + δ + δ' } : RoutingGraphEdge) =
        { e with weight := e.weight + δ' + δ }
      cases e
      simp only [RoutingGraphEdge.mk.injEq, and_true, true_and]
      ring
    · exact modAt_comm _ _ row j l hjl
  · exact modAt_comm _ _ adj i k hik

theorem bumpWeight_cancel (adj : List (List RoutingGraphEdge)) (i j : ℕ) (δ : ℚ) :
    bumpWeight (bumpWeight adj i j δ) i j (-δ) = adj := by
  unfold bumpWeight
  rw [modAt_modAt_same]
  apply modAt_id
  intro row
  rw [modAt_modAt_same]
  apply modAt_id
  intro e
  cases e
  simp only [RoutingGraphEdge.mk.injEq, and_true, true_and]
  ring

theorem adjShape_bumpCells (cells : List (ℕ × ℕ)) :
    ∀ (adj : List (List RoutingGraphEdge)) (δ : ℚ),
      adjShape (bumpCells adj cells δ) = adjShape adj := by
  induction cells with
  | nil => intro adj δ; rfl
  | cons c cs ih =>
    intro adj δ
    show adjShape (bumpCells (bumpWeight adj c.1 c.2 δ) cs δ) = adjShape adj
    rw [ih, adjShape_bumpWeight]

theorem bumpWeight_bumpCells_comm (cells : List (ℕ × ℕ)) :
    ∀ (adj : List (List RoutingGraphEdge)) (x y : ℕ) (δ δ' : ℚ),
      bumpWeight (bumpCells adj cells δ) x y δ' =
        bumpCells (bumpWeight adj x y δ') cells δ := by
  induction cells with
  | nil => intro adj x y δ δ'; rfl
  | cons c cs ih =>
    intro adj x y δ δ'
    show bumpWeight (bumpCells (bumpWeight adj c.1 c.2 δ) cs δ) x y δ' =
      bumpCells (bumpWeight (bumpWeight adj x y δ') c.1 c.2 δ) cs δ
    rw [ih, bumpWeight_comm]

theorem bumpCells_comm2 (c1 : List (ℕ × ℕ)) :
    ∀ (adj : List (List RoutingGraphEdge)) (c2 : List (ℕ × ℕ)) (δ1 δ2 : ℚ),
      bumpCells (bumpCells adj c1 δ1) c2 δ2 =
        bumpCells (bumpCells adj c2 δ2) c1 δ1 := by
  induction c1 with
  | nil => intro adj c2 δ1 δ2; rfl
  | cons c cs ih =>
    intro adj c2 δ1 δ2
    show bumpCells (bumpCells (bumpWeight adj c.1 c.2 δ1) cs δ1) c2 δ2 =
      bumpCells (bumpCells adj c2 δ2) (c :: cs) δ1
    rw [ih]
    show bumpCells (bumpCells (bumpWeight adj c.1 c.2 δ1) c2 δ2) cs δ1 =
      bumpCells (bumpWeight (bumpCells adj c2 δ2) c.1 c.2 δ1) cs δ1
    rw [bumpWeight_bumpCells_comm]

theorem bumpCells_cancel (cells : List (ℕ × ℕ)) :
    ∀ (adj : List (List RoutingGraphEdge)) (δ : ℚ),
      bumpCells (bumpCells adj cells δ) cells (-δ) = adj := by
  induction cells with
  | nil => intro adj δ; rfl
  | cons c cs ih =>
    intro adj δ
    show bumpCells
        (bumpWeight (bumpCells (bumpWeight adj c.1 c.2 δ) cs δ) c.1 c.2 (-δ))
        cs (-δ) = adj
    rw [bumpWeight_bumpCells_comm, bumpWeight_cancel]
    exact ih adj δ

theorem eKey_fst (e e' : RoutingGraphEdge) (h : eKey e = eKey e') :
    e.fromId = e'.fromId ∧ e.toId = e'.toId := by
  unfold eKey at h
  exact ⟨congrArg Prod.fst h, congrArg Prod.snd h⟩

theorem edgeCrossesRouted_eKey (nodes : List RoutingGraphNode)
    (routed : List RoutedSeg) (e e' : RoutingGraphEdge) (h : eKey e = eKey e') :
    edgeCrossesRouted nodes routed e = edgeCrossesRouted nodes routed e' := by
  obtain ⟨h1, h2⟩ := eKey_fst e e' h
  unfold edgeCrossesRouted
  rw [h1, h2]

theorem findRevIdx_shape :
    ∀ (row row' : List RoutingGraphEdge), row.map eKey = row'.map eKey →
      ∀ (a b : ℕ), findRevIdx row a b = findRevIdx row' a b
  | [], [], _, _, _ => rfl
  | [], x :: xs, h, _, _ => by simp at h
  | x :: xs, [], h, _, _ => by simp at h
  | x :: xs, y :: ys, h, a, b => by
    simp only [List.map_cons, List.cons.injEq] at h
    obtain ⟨h1, h2⟩ := eKey_fst x y h.1
    show (if x.fromId == a && x.toId == b then some 0
          else (findRevIdx xs a b).map (· + 1)) =
      (if y.fromId == a && y.toId == b then some 0
          else (findRevIdx ys a b).map (· + 1))
    rw [h1, h2, findRevIdx_shape xs ys h.2 a b]

theorem adjShape_getElem? (adj adj' : List (List RoutingGraphEdge))
    (h : adjShape adj = adjShape adj') (i : ℕ) :
    (adj[i]?).map (fun row => row.map eKey) =
      (adj'[i]?).map (fun row => row.map eKey) := by
  unfold adjShape at h
  rw [← List.getElem?_map, ← List.getElem?_map, h]

theorem adjShape_row (adj adj' : List (List RoutingGraphEdge))
    (h : adjShape adj = adjShape adj') (i : ℕ) :
    ((adj[i]?).getD []).map eKey = ((adj'[i]?).getD []).map eKey := by
  have := adjShape_getElem? adj adj' h i
  cases h1 : adj[i]? with
  | none =>
    rw [h1] at this
    cases h2 : adj'[i]? with
    | none => rfl
    | some r => rw [h2] at this; simp at this
  | some r =>
    rw [h1] at this
    cases h2 : adj'[i]? with
    | none => rw [h2] at this; simp at this
    | some r' =>
      rw [h2] at this
      simpa using this

theorem adjShape_entry (adj adj' : List (List RoutingGraphEdge))
    (h : adjShape adj = adjShape adj') (i j : ℕ) :
    (((adj[i]?).bind (fun row => row[j]?)).map eKey) =
      (((adj'[i]?).bind (fun row => row[j]?)).map eKey) := by
  have hrow := adjShape_row adj adj' h i
  cases h1 : adj[i]? with
  | none =>
    cases h2 : adj'[i]? with
    | none => rfl
    | some r' =>
      have := adjShape_getElem? adj adj' h i
      rw [h1, h2] at this; simp at this
  | some r =>
    cases h2 : adj'[i]? with
    | none =>
      have := adjShape_getElem? adj adj' h i
      rw [h1, h2] at this; simp at this
    | some r' =>
      rw [h1, h2] at hrow
      simp only [Option.getD_some] at hrow
      show ((r[j]?).map eKey) = ((r'[j]?).map eKey)
      rw [← List.getElem?_map, ← List.getElem?_map, hrow]

theorem touchedCells_shape (nodes : List RoutingGraphNode)
    (routed : List RoutedSeg) (adj adj' : List (List RoutingGraphEdge))
    (h : adjShape adj = adjShape adj') (ij : ℕ × ℕ) :
    touchedCells nodes routed adj ij = touchedCells nodes routed adj' ij := by
  unfold touchedCells
  have hent := adjShape_entry adj adj' h ij.1 ij.2
  cases h1 : (adj[ij.1]?).bind (fun row => row[ij.2]?) with
  | none =>
    rw [h1] at hent
    cases h2 : (adj'[ij.1]?).bind (fun row => row[ij.2]?) with
    | none => rfl
    | some e' => rw [h2] at hent; simp at hent
  | some e =>
    rw [h1] at hent
    cases h2 : (adj'[ij.1]?).bind (fun row => row[ij.2]?) with
    | none => rw [h2] at hent; simp at hent
    | some e' =>
      rw [h2] at hent
      have hent2 : eKey e = eKey e' := by
        have h3 : some (eKey e) = some (eKey e') := hent
        exact Option.some.inj h3
      obtain ⟨hf, ht⟩ := eKey_fst e e' hent2
      show (if (e.fromId == ij.1 && edgeCrossesRouted nodes routed e) = true then
              match findRevIdx ((adj[e.toId]?).getD []) e.toId e.fromId with
              | some k => [(ij.1, ij.2), (e.toId, k)]
              | none => [(ij.1, ij.2)]
            else []) =
        (if (e'.fromId == ij.1 && edgeCrossesRouted nodes routed e') = true then
              match findRevIdx ((adj'[e'.toId]?).getD []) e'.toId e'.fromId with
              | some k => [(ij.1, ij.2), (e'.toId, k)]
              | none => [(ij.1, ij.2)]
            else [])
      rw [hf, ht, edgeCrossesRouted_eKey nodes routed e e' hent2]
      rw [findRevIdx_shape _ _ (adjShape_row adj adj' h e'.toId) e'.toId e'.fromId]

theorem crossPenaltyStep_eq_bump (nodes : List RoutingGraphNode)
    (routed : List RoutedSeg) (δ : ℚ) (adj : List (List RoutingGraphEdge))
    (ij : ℕ × ℕ) :
    crossPenaltyStep nodes routed δ adj ij =
      bumpCells adj (touchedCells nodes routed adj ij) δ := by
  unfold crossPenaltyStep touchedCells
  cases h1 : (adj[ij.1]?).bind (fun row => row[ij.2]?) with
  | none => rfl
  | some e =>
    by_cases hc : (e.fromId == ij.1 && edgeCrossesRouted nodes routed e) = true
    · simp only [hc, if_true]
      have hsh : adjShape (bumpWeight adj ij.1 ij.2 δ) = adjShape adj :=
        adjShape_bumpWeight adj ij.1 ij.2 δ
      rw [findRevIdx_shape _ _ (adjShape_row _ _ hsh e.toId) e.toId e.fromId]
      cases h2 : findRevIdx ((adj[e.toId]?).getD []) e.toId e.fromId with
      | some k => rfl
      | none => rfl
    · simp only [hc, if_false]
      rfl

theorem crossPenaltyStep_shape (nodes : List RoutingGraphNode)
    (routed : List RoutedSeg) (δ : ℚ) (adj : List (List RoutingGraphEdge))
    (ij : ℕ × ℕ) :
    adjShape (crossPenaltyStep nodes routed δ adj ij) = adjShape adj := by
  rw [crossPenaltyStep_eq_bump, adjShape_bumpCells]

theorem crossPenaltyStep_comm (nodes : List RoutingGraphNode)
    (routed : List RoutedSeg) (σ τ : ℚ) (adj : List (List RoutingGraphEdge))
    (x y : ℕ × ℕ) :
    crossPenaltyStep nodes routed σ (crossPenaltyStep nodes routed τ adj y) x =
      crossPenaltyStep nodes routed τ (crossPenaltyStep nodes routed σ adj x) y := by
  rw [crossPenaltyStep_eq_bump nodes routed τ adj y,
      crossPenaltyStep_eq_bump nodes routed σ adj x,
      crossPenaltyStep_eq_bump nodes routed σ _ x,
      crossPenaltyStep_eq_bump nodes routed τ _ y,
      touchedCells_shape nodes routed _ adj (adjShape_bumpCells _ adj τ) x,
      touchedCells_shape nodes routed _ adj (adjShape_bumpCells _ adj σ) y,
      bumpCells_comm2]

theorem crossPenaltyStep_cancel (nodes : List RoutingGraphNode)
    (routed : List RoutedSeg) (δ : ℚ) (adj : List (List RoutingGraphEdge))
    (x : ℕ × ℕ) :
    crossPenaltyStep nodes routed (-δ) (crossPenaltyStep nodes routed δ adj x) x = adj := by
  rw [crossPenaltyStep_eq_bump nodes routed δ adj x,
      crossPenaltyStep_eq_bump nodes routed (-δ) _ x,
      touchedCells_shape nodes routed _ adj (adjShape_bumpCells _ adj δ) x,
      bumpCells_cancel]

theorem crossPenaltyStep_fold_comm (nodes : List RoutingGraphNode)
    (routed : List RoutedSeg) (σ τ : ℚ) (l : List (ℕ × ℕ)) :
    ∀ (adj : List (List RoutingGraphEdge)) (x : ℕ × ℕ),
      crossPenaltyStep nodes routed σ
          (List.foldl (crossPenaltyStep nodes routed τ) adj l) x =
        List.foldl (crossPenaltyStep nodes routed τ)
          (crossPenaltyStep nodes routed σ adj x) l := by
  induction l with
  | nil => intro adj x; rfl
  | cons c cs ih =>
    intro adj x
    simp only [List.foldl_cons]
    rw [ih, crossPenaltyStep_comm]

theorem crossPenaltyStep_fold_cancel (nodes : List RoutingGraphNode)
    (routed : List RoutedSeg) (δ : ℚ) (l : List (ℕ × ℕ)) :
    ∀ (adj : List (List RoutingGraphEdge)),
      List.foldl (crossPenaltyStep nodes routed (-δ))
        (List.foldl (crossPenaltyStep nodes routed δ) adj l) l = adj := by
  induction l with
  | nil => intro adj; rfl
  | cons c cs ih =>
    intro adj
    simp only [List.foldl_cons]
    rw [crossPenaltyStep_fold_comm, crossPenaltyStep_cancel]
    exact ih adj

theorem crossPenaltyStep_fold_shape (nodes : List RoutingGraphNode)
    (routed : List RoutedSeg) (δ : ℚ) (l : List (ℕ × ℕ)) :
    ∀ (adj : List (List RoutingGraphEdge)),
      adjShape (List.foldl (crossPenaltyStep nodes routed δ) adj l) = adjShape adj := by
  induction l with
  | nil => intro adj; rfl
  | cons c cs ih =>
    intro adj
    simp only [List.foldl_cons]
    rw [ih, crossPenaltyStep_shape]

theorem adjIndexPairs_shape (adj adj' : List (List RoutingGraphEdge))
    (h : adjShape adj = adjShape adj') :
    adjIndexPairs adj = adjIndexPairs adj' := by
  unfold adjIndexPairs
  have hlen : adj.length = adj'.length := by
    have : (adjShape adj).length = (adjShape adj').length := by rw [h]
    simpa [adjShape] using this
  rw [hlen]
  congr 1
  funext i
  congr 2
  have := adjShape_row adj adj' h i
  have : (((adj[i]?).getD []).map eKey).length = (((adj'[i]?).getD []).map eKey).length := by
    rw [this]
  simpa using this

/-- **C3.**  Applying `addCrossingPenalties` and then
`removeCrossingPenalties` with the same routing graph and the same
routed-segment list restores every adjacency entry (both directions of every
undirected edge) to its exact pre-add weight: the pair is an involution on
the routing graph. -/
theorem claim_C3 (rg : RoutingGraph) (routed : List RoutedSeg) :
    removeCrossingPenalties (addCrossingPenalties rg routed) routed = rg := by
  unfold addCrossingPenalties removeCrossingPenalties
  by_cases h : routed.isEmpty
  · simp [h]
  · simp only [if_neg h]
    unfold applyCrossingPenalty
    cases rg with
    | mk nodes adj =>
      simp only
      congr 1
      rw [adjIndexPairs_shape _ adj
        (crossPenaltyStep_fold_shape nodes routed crossingPenalty (adjIndexPairs adj) adj)]
      exact crossPenaltyStep_fold_cancel nodes routed crossingPenalty (adjIndexPairs adj) adj

/-- **C2.**  For every routing graph and every distinct source/destination
pair: the search is seeded with exactly two states at the source — one per
orientation, both with length 0 and bend count 0 — and whenever a popped
state `cur` is expanded along an adjacent edge `e`, the new state
(`newStateFor`, the state constructor used by `dijkstraLoop`'s expansion)
has length `cur.length + e.weight`, entry orientation `e.orientation`, and a
bend count that is `cur.bends + 1` iff the edge's orientation differs from
`cur`'s entry orientation and the current node is not the start node (and is
`cur.bends` otherwise). -/
theorem claim_C2 (rg : RoutingGraph) (srcNode dstNode : ℕ)
    (h : srcNode ≠ dstNode) :
    dijkstraRoute rg srcNode dstNode =
      dijkstraLoop rg srcNode dstNode (dijkstraFuel rg)
        (dijkstraInitStates srcNode) (dijkstraInitBest srcNode) [] [] ∧
    dijkstraInitStates srcNode =
      [⟨srcNode, 0, 0, Orientation.horizontal, -1⟩,
       ⟨srcNode, 0, 0, Orientation.vertical, -1⟩] ∧
    (∀ (cur : DijkstraState) (e : RoutingGraphEdge),
      (newStateFor srcNode cur e).length = cur.length + e.weight ∧
      (newStateFor srcNode cur e).direction = e.orientation ∧
      ((newStateFor srcNode cur e).bends = cur.bends + 1 ↔
        (e.orientation ≠ cur.direction ∧ cur.nodeId ≠ srcNode)) ∧
      (¬(e.orientation ≠ cur.direction ∧ cur.nodeId ≠ srcNode) →
        (newStateFor srcNode cur e).bends = cur.bends)) := by
  refine ⟨by rw [dijkstraRoute, if_neg h], rfl, ?_⟩
  intro cur e
  refine ⟨rfl, rfl, ?_, ?_⟩
  · show (if cur.nodeId ≠ srcNode ∧ e.orientation ≠ cur.direction
          then cur.bends + 1 else cur.bends) = cur.bends + 1 ↔
      (e.orientation ≠ cur.direction ∧ cur.nodeId ≠ srcNode)
    by_cases hc : cur.nodeId ≠ srcNode ∧ e.orientation ≠ cur.direction
    · rw [if_pos hc]
      exact ⟨fun _ => ⟨hc.2, hc.1⟩, fun _ => rfl⟩
    · rw [if_neg hc]
      constructor
      · intro hb; omega
      · intro hcon; exact absurd ⟨hcon.2, hcon.1⟩ hc
  · show ¬(e.orientation ≠ cur.direction ∧ cur.nodeId ≠ srcNode) →
      (if cur.nodeId ≠ srcNode ∧ e.orientation ≠ cur.direction
       then cur.bends + 1 else cur.bends) = cur.bends
    intro hn
    rw [if_neg (fun hc => hn ⟨hc.2, hc.1⟩)]

/-- **C2, witness.**  The theorem applied to a concrete four-node routing
graph with distinct source and destination. -/
theorem claim_C2_witness :
    dijkstraRoute
        ⟨[⟨0, ⟨0, 0⟩⟩, ⟨1, ⟨10, 0⟩⟩],
         [[⟨0, 1, 10, Orientation.horizontal⟩],
          [⟨1, 0, 10, Orientation.horizontal⟩]]⟩ 0 1 =
      dijkstraLoop
        ⟨[⟨0, ⟨0, 0⟩⟩, ⟨1, ⟨10, 0⟩⟩],
         [[⟨0, 1, 10, Orientation.horizontal⟩],
          [⟨1, 0, 10, Orientation.horizontal⟩]]⟩ 0 1
        (dijkstraFuel ⟨[⟨0, ⟨0, 0⟩⟩, ⟨1, ⟨10, 0⟩⟩],
          [[⟨0, 1, 10, Orientation.horizontal⟩],
           [⟨1, 0, 10, Orientation.horizontal⟩]]⟩)
        (dijkstraInitStates 0) (dijkstraInitBest 0) [] [] ∧
    dijkstraInitStates 0 =
      [⟨0, 0, 0, Orientation.horizontal, -1⟩, ⟨0, 0, 0, Orientation.vertical, -1⟩] ∧
    (∀ (cur : DijkstraState) (e : RoutingGraphEdge),
      (newStateFor 0 cur e).length = cur.length + e.weight ∧
      (newStateFor 0 cur e).direction = e.orientation ∧
      ((newStateFor 0 cur e).bends = cur.bends + 1 ↔
        (e.orientation ≠ cur.direction ∧ cur.nodeId ≠ 0)) ∧
      (¬(e.orientation ≠ cur.direction ∧ cur.nodeId ≠ 0) →
        (newStateFor 0 cur e).bends = cur.bends)) :=
  claim_C2 _ 0 1 (by decide)

/-- **C4, amended.**  A second application of `simplifyRoute` never lengthens
the route: `simplifyRoute (simplifyRoute r)` has at most as many points as
`simplifyRoute r` (it can be strictly shorter, so idempotence fails). -/
theorem claim_C4 (r : List Point) :
    (simplifyRoute (simplifyRoute r)).length ≤ (simplifyRoute r).length :=
  simplifyRoute_length (simplifyRoute r)

/-- **C7, counterexample.**  Two ports on the top face of a 30-unit-wide box:
the computed positions are x = 14 and x = 16 — the 12-unit corner gap is kept
in full (no proportional collapse although 12+8+12 > 30) and the ports end up
only 2 units apart, violating the claimed guaranteed 8-unit minimum
port-to-port clearance. -/
theorem claim_C7_counterexample :
    (sortAndSpreadPorts
        [⟨⟨0, 0, 30, 20⟩, ⟨0, 30, 10, 10⟩, Face.top, none, true⟩,
         ⟨⟨0, 0, 30, 20⟩, ⟨20, 30, 10, 10⟩, Face.top, none, true⟩]
        Face.top).map (fun p => p.pos) =
      [some ⟨14, 0⟩, some ⟨16, 0⟩] ∧ ((16 : ℚ) - 14 < 8) := by
  constructor
  · with_unfolding_all decide
  · norm_num

/-- **C7, amended.**  Ports are assigned positions at parameter
`t = (i+1)/(N+1)` (in sorted order) via `facePoint(obj, f, t, 12, 8, N)`;
`facePoint` reserves the 12-unit corner gap whenever the face span is at
least 24 units and otherwise collapses the gap to exactly zero (using the
full span); the 8-unit minimum-clearance parameter is accepted but never
read, so no port-to-port clearance is enforced. -/
theorem claim_C7 (ports : List PortInfo) (f : Face) (h : ports ≠ []) :
    (∀ i : ℕ, i < ports.length →
      ((sortAndSpreadPorts ports f)[i]?).map (fun p => p.pos) =
        some (some (facePoint (firstObj (sortPorts ports f)) f
          ((i + 1 : ℚ) / ((ports.length : ℚ) + 1)) 12 8 ports.length))) ∧
    (∀ (obj : Rect) (t cg mc mc' : ℚ) (n n' : ℕ),
      facePoint obj f t cg mc n = facePoint obj f t cg mc' n') ∧
    (∀ (obj : Rect) (t mc : ℚ) (n : ℕ),
      facePoint obj f t 12 mc n =
        if faceSpan obj f - 24 < 0
        then facePointSpread obj f 0 (faceSpan obj f) t
        else facePointSpread obj f 12 (faceSpan obj f - 24) t) := by
  refine ⟨?_, ?_, ?_⟩
  · intro i hi
    unfold sortAndSpreadPorts
    rw [if_neg (by simpa [List.isEmpty_iff] using h)]
    have hlen : (sortPorts ports f).length = ports.length :=
      List.length_mergeSort _
    rw [List.getElem?_map, List.getElem?_enum]
    have hi2 : i < (sortPorts ports f).length := by rw [hlen]; exact hi
    rw [List.getElem?_eq_getElem hi2]
    rw [hlen]
    simp
  · intro obj t cg mc mc' n n'
    cases f <;> rfl
  · intro obj t mc n
    have e2412 : ∀ s : ℚ, s - 2 * 12 = s - 24 := by intro s; norm_num
    cases f with
    | top =>
      by_cases hc : obj.w - 24 < 0
      · simp [facePoint, faceSpan, facePointSpread, e2412, hc]
      · simp [facePoint, faceSpan, facePointSpread, e2412, hc]
    | bottom =>
      by_cases hc : obj.w - 24 < 0
      · simp [facePoint, faceSpan, facePointSpread, e2412, hc]
      · simp [facePoint, faceSpan, facePointSpread, e2412, hc]
    | left =>
      by_cases hc : obj.h - 24 < 0
      · simp [facePoint, faceSpan, facePointSpread, e2412, hc]
      · simp [facePoint, faceSpan, facePointSpread, e2412, hc]
    | right =>
      by_cases hc : obj.h - 24 < 0
      · simp [facePoint, faceSpan, facePointSpread, e2412, hc]
      · simp [facePoint, faceSpan, facePointSpread, e2412, hc]

/-- **C7, witness.**  The amended theorem applied to a single port on the top
face of the 30-unit-wide box: the assigned position is
`facePoint` at `t = 1/2`, i.e. `(15, 0)`. -/
theorem claim_C7_witness :
    ((sortAndSpreadPorts
        [⟨⟨0, 0, 30, 20⟩, ⟨0, 30, 10, 10⟩, Face.top, none, true⟩]
        Face.top)[0]?).map (fun p => p.pos) = some (some ⟨15, 0⟩) :=
  ((claim_C7 [⟨⟨0, 0, 30, 20⟩, ⟨0, 30, 10, 10⟩, Face.top, none, true⟩]
      Face.top (by decide)).1 0 (by decide)).trans
    (by with_unfolding_all decide)

/-- **C8, counterexample.**  A Bottom→Top edge whose boxes do overlap
horizontally (overlap `[95, 100]`, midpoint 97.5), but the midpoint lies
outside the source box's inner 10%–90% band (`[10, 90]`): the code leaves
both ports exactly unchanged instead of setting them to the (clamped)
midpoint, so the claim's unconditional "sets both ports' x-coordinates to
the x-midpoint, clamped" is false. -/
theorem claim_C8_counterexample :
    alignNearlyAlignedPorts [⟨0, 0, 100, 60⟩, ⟨95, 100, 200, 60⟩]
        ⟨[⟨0, 0, Direction.bottom, ⟨50, 60⟩, true⟩],
         [⟨1, 0, Direction.top, ⟨195, 100⟩, false⟩]⟩ =
      ⟨[⟨0, 0, Direction.bottom, ⟨50, 60⟩, true⟩],
       [⟨1, 0, Direction.top, ⟨195, 100⟩, false⟩]⟩ ∧
    ((95 : ℚ) < 100) ∧
    vertTX [⟨0, 0, 100, 60⟩, ⟨95, 100, 200, 60⟩]
        ⟨0, 0, Direction.bottom, ⟨50, 60⟩, true⟩
        ⟨1, 0, Direction.top, ⟨195, 100⟩, false⟩ = 195/2 ∧
    ((50 : ℚ) ≠ 195/2 ∧ (50 : ℚ) ≠ 90 ∧ (195 : ℚ) ≠ 195/2) := by
  refine ⟨by with_unfolding_all decide, by norm_num, by with_unfolding_all decide,
    by norm_num, by norm_num, by norm_num⟩

/-- **C8, amended.**  For a Bottom↔Top pair, `alignPortPair` sets both
ports' x-coordinates to the x-midpoint of the horizontal overlap exactly when
the boxes overlap horizontally *and* that midpoint already lies within the
inner 10%–90% band of both boxes; otherwise it leaves both ports unchanged
(no clamping is performed).  Symmetrically for a Right↔Left pair and y.
Port pairs with any other face combination are unchanged. -/
theorem claim_C8 (boxes : List Rect) (src dst : Port) :
    (vertPair src dst → vertApplies boxes src dst →
      alignPortPair boxes src dst =
        ({ src with pos := ⟨vertTX boxes src dst, src.pos.y⟩ },
         { dst with pos := ⟨vertTX boxes src dst, dst.pos.y⟩ })) ∧
    (vertPair src dst → ¬ vertApplies boxes src dst →
      alignPortPair boxes src dst = (src, dst)) ∧
    (horizPair src dst → horizApplies boxes src dst →
      alignPortPair boxes src dst =
        ({ src with pos := ⟨src.pos.x, horizTY boxes src dst⟩ },
         { dst with pos := ⟨dst.pos.x, horizTY boxes src dst⟩ })) ∧
    (horizPair src dst → ¬ horizApplies boxes src dst →
      alignPortPair boxes src dst = (src, dst)) ∧
    (¬ vertPair src dst → ¬ horizPair src dst →
      alignPortPair boxes src dst = (src, dst)) := by
  have hvh : vertPair src dst → ¬ horizPair src dst := by
    intro hv hh
    rcases hv with ⟨h1, _⟩ | ⟨h1, _⟩ <;>
      rcases hh with ⟨h2, _⟩ | ⟨h2, _⟩ <;> rw [h1] at h2 <;> exact absurd h2 (by decide)
  refine ⟨?_, ?_, ?_, ?_, ?_⟩
  · intro hv ha
    obtain ⟨hov, h1, h2, h3, h4⟩ := ha
    have hv' : src.side = Direction.bottom ∧ dst.side = Direction.top ∨
        src.side = Direction.top ∧ dst.side = Direction.bottom := hv
    have hh' : ¬ (src.side = Direction.right ∧ dst.side = Direction.left ∨
        src.side = Direction.left ∧ dst.side = Direction.right) := hvh hv
    have hov' : min (boxAt boxes src.nodeIdx).right (boxAt boxes dst.nodeIdx).right >
        max (boxAt boxes src.nodeIdx).left (boxAt boxes dst.nodeIdx).left := hov
    have hr : (max (boxAt boxes src.nodeIdx).left (boxAt boxes dst.nodeIdx).left +
          min (boxAt boxes src.nodeIdx).right (boxAt boxes dst.nodeIdx).right) / 2 ≥
          (boxAt boxes src.nodeIdx).left + (boxAt boxes src.nodeIdx).w * (1/10) ∧
        (max (boxAt boxes src.nodeIdx).left (boxAt boxes dst.nodeIdx).left +
          min (boxAt boxes src.nodeIdx).right (boxAt boxes dst.nodeIdx).right) / 2 ≤
          (boxAt boxes src.nodeIdx).left + (boxAt boxes src.nodeIdx).w * (9/10) ∧
        (max (boxAt boxes src.nodeIdx).left (boxAt boxes dst.nodeIdx).left +
          min (boxAt boxes src.nodeIdx).right (boxAt boxes dst.nodeIdx).right) / 2 ≥
          (boxAt boxes dst.nodeIdx).left + (boxAt boxes dst.nodeIdx).w * (1/10) ∧
        (max (boxAt boxes src.nodeIdx).left (boxAt boxes dst.nodeIdx).left +
          min (boxAt boxes src.nodeIdx).right (boxAt boxes dst.nodeIdx).right) / 2 ≤
          (boxAt boxes dst.nodeIdx).left + (boxAt boxes dst.nodeIdx).w * (9/10) :=
      ⟨h1, h2, h3, h4⟩
    simp only [alignPortPair]
    rw [if_pos hv', if_pos hov', if_pos hr]
    dsimp only
    rw [if_neg hh']
    with_unfolding_all rfl
  · intro hv ha
    have hv' : src.side = Direction.bottom ∧ dst.side = Direction.top ∨
        src.side = Direction.top ∧ dst.side = Direction.bottom := hv
    have hh' : ¬ (src.side = Direction.right ∧ dst.side = Direction.left ∨
        src.side = Direction.left ∧ dst.side = Direction.right) := hvh hv
    simp only [alignPortPair]
    rw [if_pos hv']
    by_cases hov : min (boxAt boxes src.nodeIdx).right (boxAt boxes dst.nodeIdx).right >
        max (boxAt boxes src.nodeIdx).left (boxAt boxes dst.nodeIdx).left
    · rw [if_pos hov]
      have hcond : ¬ ((max (boxAt boxes src.nodeIdx).left (boxAt boxes dst.nodeIdx).left +
            min (boxAt boxes src.nodeIdx).right (boxAt boxes dst.nodeIdx).right) / 2 ≥
            (boxAt boxes src.nodeIdx).left + (boxAt boxes src.nodeIdx).w * (1/10) ∧
          (max (boxAt boxes src.nodeIdx).left (boxAt boxes dst.nodeIdx).left +
            min (boxAt boxes src.nodeIdx).right (boxAt boxes dst.nodeIdx).right) / 2 ≤
            (boxAt boxes src.nodeIdx).left + (boxAt boxes src.nodeIdx).w * (9/10) ∧
          (max (boxAt boxes src.nodeIdx).left (boxAt boxes dst.nodeIdx).left +
            min (boxAt boxes src.nodeIdx).right (boxAt boxes dst.nodeIdx).right) / 2 ≥
            (boxAt boxes dst.nodeIdx).left + (boxAt boxes dst.nodeIdx).w * (1/10) ∧
          (max (boxAt boxes src.nodeIdx).left (boxAt boxes dst.nodeIdx).left +
            min (boxAt boxes src.nodeIdx).right (boxAt boxes dst.nodeIdx).right) / 2 ≤
            (boxAt boxes dst.nodeIdx).left + (boxAt boxes dst.nodeIdx).w * (9/10)) := by
        intro hc
        exact ha ⟨hov, hc.1, hc.2.1, hc.2.2.1, hc.2.2.2⟩
      rw [if_neg hcond]
      dsimp only
      rw [if_neg hh']
    · rw [if_neg hov]
      dsimp only
      rw [if_neg hh']
  · intro hh ha
    obtain ⟨hov, h1, h2, h3, h4⟩ := ha
    have hnv : ¬ (src.side = Direction.bottom ∧ dst.side = Direction.top ∨
        src.side = Direction.top ∧ dst.side = Direction.bottom) := fun hv => hvh hv hh
    have hh' : src.side = Direction.right ∧ dst.side = Direction.left ∨
        src.side = Direction.left ∧ dst.side = Direction.right := hh
    have hov' : min (boxAt boxes src.nodeIdx).bottom (boxAt boxes dst.nodeIdx).bottom >
        max (boxAt boxes src.nodeIdx).top (boxAt boxes dst.nodeIdx).top := hov
    have hr : (max (boxAt boxes src.nodeIdx).top (boxAt boxes dst.nodeIdx).top +
          min (boxAt boxes src.nodeIdx).bottom (boxAt boxes dst.nodeIdx).bottom) / 2 ≥
          (boxAt boxes src.nodeIdx).top + (boxAt boxes src.nodeIdx).h * (1/10) ∧
        (max (boxAt boxes src.nodeIdx).top (boxAt boxes dst.nodeIdx).top +
          min (boxAt boxes src.nodeIdx).bottom (boxAt boxes dst.nodeIdx).bottom) / 2 ≤
          (boxAt boxes src.nodeIdx).top + (boxAt boxes src.nodeIdx).h * (9/10) ∧
        (max (boxAt boxes src.nodeIdx).top (boxAt boxes dst.nodeIdx).top +
          min (boxAt boxes src.nodeIdx).bottom (boxAt boxes dst.nodeIdx).bottom) / 2 ≥
          (boxAt boxes dst.nodeIdx).top + (boxAt boxes dst.nodeIdx).h * (1/10) ∧
        (max (boxAt boxes src.nodeIdx).top (boxAt boxes dst.nodeIdx).top +
          min (boxAt boxes src.nodeIdx).bottom (boxAt boxes dst.nodeIdx).bottom) / 2 ≤
          (boxAt boxes dst.nodeIdx).top + (boxAt boxes dst.nodeIdx).h * (9/10) :=
      ⟨h1, h2, h3, h4⟩
    simp only [alignPortPair]
    rw [if_neg hnv]
    dsimp only
    rw [if_pos hh', if_pos hov', if_pos hr]
    with_unfolding_all rfl
  · intro hh ha
    have hnv : ¬ (src.side = Direction.bottom ∧ dst.side = Direction.top ∨
        src.side = Direction.top ∧ dst.side = Direction.bottom) := fun hv => hvh hv hh
    have hh' : src.side = Direction.right ∧ dst.side = Direction.left ∨
        src.side = Direction.left ∧ dst.side = Direction.right := hh
    simp only [alignPortPair]
    rw [if_neg hnv]
    dsimp only
    rw [if_pos hh']
    by_cases hov : min (boxAt boxes src.nodeIdx).bottom (boxAt boxes dst.nodeIdx).bottom >
        max (boxAt boxes src.nodeIdx).top (boxAt boxes dst.nodeIdx).top
    · rw [if_pos hov]
      have hcond : ¬ ((max (boxAt boxes src.nodeIdx).top (boxAt boxes dst.nodeIdx).top +
            min (boxAt boxes src.nodeIdx).bottom (boxAt boxes dst.nodeIdx).bottom) / 2 ≥
            (boxAt boxes src.nodeIdx).top + (boxAt boxes src.nodeIdx).h * (1/10) ∧
          (max (boxAt boxes src.nodeIdx).top (boxAt boxes dst.nodeIdx).top +
            min (boxAt boxes src.nodeIdx).bottom (boxAt boxes dst.nodeIdx).bottom) / 2 ≤
            (boxAt boxes src.nodeIdx).top + (boxAt boxes src.nodeIdx).h * (9/10) ∧
          (max (boxAt boxes src.nodeIdx).top (boxAt boxes dst.nodeIdx).top +
            min (boxAt boxes src.nodeIdx).bottom (boxAt boxes dst.nodeIdx).bottom) / 2 ≥
            (boxAt boxes dst.nodeIdx).top + (boxAt boxes dst.nodeIdx).h * (1/10) ∧
          (max (boxAt boxes src.nodeIdx).top (boxAt boxes dst.nodeIdx).top +
            min (boxAt boxes src.nodeIdx).bottom (boxAt boxes dst.nodeIdx).bottom) / 2 ≤
            (boxAt boxes dst.nodeIdx).top + (boxAt boxes dst.nodeIdx).h * (9/10)) := by
        intro hc
        exact ha ⟨hov, hc.1, hc.2.1, hc.2.2.1, hc.2.2.2⟩
      rw [if_neg hcond]
    · rw [if_neg hov]
  · intro hnv hnh
    have hnv' : ¬ (src.side = Direction.bottom ∧ dst.side = Direction.top ∨
        src.side = Direction.top ∧ dst.side = Direction.bottom) := hnv
    have hnh' : ¬ (src.side = Direction.right ∧ dst.side = Direction.left ∨
        src.side = Direction.left ∧ dst.side = Direction.right) := hnh
    simp only [alignPortPair]
    rw [if_neg hnv']
    dsimp only
    rw [if_neg hnh']

/-- **C8, witness.**  The amended theorem applied to a Bottom→Top pair of
100-unit-wide stacked boxes (overlap midpoint 50, inside both inner bands):
both ports are aligned to x = 50. -/
theorem claim_C8_witness :
    alignPortPair [⟨0, 0, 100, 60⟩, ⟨0, 100, 100, 60⟩]
        ⟨0, 0, Direction.bottom, ⟨40, 60⟩, true⟩
        ⟨1, 0, Direction.top, ⟨60, 100⟩, false⟩ =
      (⟨0, 0, Direction.bottom, ⟨50, 60⟩, true⟩,
       ⟨1, 0, Direction.top, ⟨50, 100⟩, false⟩) :=
  ((claim_C8 [⟨0, 0, 100, 60⟩, ⟨0, 100, 100, 60⟩]
      ⟨0, 0, Direction.bottom, ⟨40, 60⟩, true⟩
      ⟨1, 0, Direction.top, ⟨60, 100⟩, false⟩).1
    (Or.inl ⟨rfl, rfl⟩)
    (by with_unfolding_all decide)).trans
  (by with_unfolding_all decide)

theorem collectStep_len (g : Graph) (acc : List ℕ) (ei : ℕ) :
    acc.length ≤ (collectStep g acc ei).length := by
  simp only [collectStep]
  split_ifs <;> simp [List.length_append]

theorem collectStep_nil_len (g : Graph) (e0 : ℕ) : 1 ≤ (collectStep g [] e0).length := by
  simp [collectStep]
  split_ifs <;> simp

theorem foldl_length_mono {α β : Type} (f : List β → α → List β)
    (hf : ∀ acc a, acc.length ≤ (f acc a).length) :
    ∀ (l : List α) (acc : List β), acc.length ≤ (l.foldl f acc).length
  | [], _ => le_refl _
  | a :: r, acc => le_trans (hf acc a) (foldl_length_mono f hf r (f acc a))

theorem collectEndpoints_ne_nil (g : Graph) (es : List ℕ) (h : es ≠ []) :
    collectEndpoints g es ≠ [] := by
  match es, h with
  | e0 :: rest, _ =>
    intro hnil
    have h1 := collectStep_nil_len g e0
    have h2 := foldl_length_mono (collectStep g) (collectStep_len g) rest
      (collectStep g [] e0)
    have h3 : (rest.foldl (collectStep g) (collectStep g [] e0)).length = 0 := by
      have : collectEndpoints g (e0 :: rest) =
          rest.foldl (collectStep g) (collectStep g [] e0) := rfl
      rw [← this, hnil]
      rfl
    omega

theorem allObjects_ne_nil (g : Graph) (es : List ℕ) (h : es ≠ []) :
    allObjects g es ≠ [] := by
  unfold allObjects
  cases hfc : findCommonParent g es with
  | none => exact collectEndpoints_ne_nil g es h
  | some p =>
    show (if (childrenOf g p).length > 0 then childrenOf g p
          else collectEndpoints g es) ≠ []
    by_cases hl : (childrenOf g p).length > 0
    · rw [if_pos hl]
      intro hnil
      rw [hnil] at hl
      simp at hl
    · rw [if_neg hl]
      exact collectEndpoints_ne_nil g es h

theorem routeEdges_ok (g : Graph) (es : List ℕ) (h : es ≠ []) :
    RouteEdges g es = Except.ok (routeEdgesBody g es) := by
  unfold RouteEdges
  rw [if_neg h, if_neg (allObjects_ne_nil g es h)]

/-- C9: `RouteEdges` succeeds immediately and without change on an empty edge
list; for a non-empty edge list it returns the descriptive error exactly when
the collected object list (common parent's children, else the endpoint union)
is empty, and otherwise succeeds — no other input produces an error. -/
theorem claim_C9 (g : Graph) (es : List ℕ) :
    (es = [] → RouteEdges g es = Except.ok g) ∧
    (es ≠ [] →
      ((∃ msg, RouteEdges g es = Except.error msg) ↔ allObjects g es = []) ∧
      (allObjects g es = [] →
        RouteEdges g es = Except.error "grid router: no objects found") ∧
      (allObjects g es ≠ [] → ∃ g2, RouteEdges g es = Except.ok g2)) := by
  refine ⟨?_, ?_⟩
  · intro h
    rw [h]
    rfl
  · intro h
    refine ⟨⟨?_, ?_⟩, ?_, ?_⟩
    · rintro ⟨msg, hmsg⟩
      unfold RouteEdges at hmsg
      rw [if_neg h] at hmsg
      by_cases hobj : allObjects g es = []
      · exact hobj
      · rw [if_neg hobj] at hmsg
        exact absurd hmsg (by simp)
    · intro hobj
      refine ⟨"grid router: no objects found", ?_⟩
      unfold RouteEdges
      rw [if_neg h, if_pos hobj]
    · intro hobj
      unfold RouteEdges
      rw [if_neg h, if_pos hobj]
    · intro hobj
      exact ⟨routeEdgesBody g es, routeEdges_ok g es h⟩

theorem claim_C9_witness :
    RouteEdges gW [] = Except.ok gW ∧
    ((∃ msg, RouteEdges gW [0, 1] = Except.error msg) ↔ allObjects gW [0, 1] = []) ∧
    (allObjects gW [0, 1] ≠ [] → ∃ g2, RouteEdges gW [0, 1] = Except.ok g2) :=
  ⟨(claim_C9 gW []).1 rfl,
   ((claim_C9 gW [0, 1]).2 (by decide)).1,
   ((claim_C9 gW [0, 1]).2 (by decide)).2.2⟩

theorem mem_edgeRoutingOrder (ports : PortAssignment) (n j : ℕ) (h : j < n) :
    j ∈ edgeRoutingOrder ports n := by
  simp only [edgeRoutingOrder]
  exact List.mem_map.mpr
    ⟨_, (List.mergeSort_perm _ _).mem_iff.mpr
      (List.mem_map.mpr ⟨j, List.mem_range.mpr h, rfl⟩), rfl⟩

theorem routeOneEdge_self (ports : PortAssignment) (st : RouteState) (i : ℕ)
    (h : i < st.routes.length) :
    (((routeOneEdge ports st i).routes)[i]?).map EdgeRoute.edgeIdx = some i := by
  have hx : st.routes[i]? = some st.routes[i] := List.getElem?_eq_getElem h
  simp only [routeOneEdge]
  split_ifs <;> rw [modAt_getElem?_self, hx] <;> rfl

theorem routeOneEdge_length (ports : PortAssignment) (st : RouteState) (i : ℕ) :
    (routeOneEdge ports st i).routes.length = st.routes.length := by
  simp only [routeOneEdge]
  split_ifs <;> simp [modAt_length]

theorem routeOneEdge_keep (ports : PortAssignment) (st : RouteState) (i j : ℕ)
    (h : (st.routes[j]?).map EdgeRoute.edgeIdx = some j) :
    (((routeOneEdge ports st i).routes)[j]?).map EdgeRoute.edgeIdx = some j := by
  by_cases hij : j = i
  · subst hij
    have hlt : j < st.routes.length := by
      cases hx : st.routes[j]? with
      | none => rw [hx] at h; simp at h
      | some v =>
        by_contra hge
        rw [List.getElem?_eq_none (by omega)] at hx
        exact Option.noConfusion hx
    exact routeOneEdge_self ports st j hlt
  · simp only [routeOneEdge]
    split_ifs <;> rw [modAt_getElem? _ _ _ j hij] <;> exact h

theorem routeFold_keep (ports : PortAssignment) :
    ∀ (l : List ℕ) (st : RouteState) (j : ℕ),
      (st.routes[j]?).map EdgeRoute.edgeIdx = some j →
      (((l.foldl (routeOneEdge ports) st).routes)[j]?).map EdgeRoute.edgeIdx = some j
  | [], _, _, h => h
  | i :: r, st, j, h =>
    routeFold_keep ports r (routeOneEdge ports st i) j (routeOneEdge_keep ports st i j h)

theorem routeFold_mem (ports : PortAssignment) :
    ∀ (l : List ℕ) (st : RouteState) (j : ℕ), j ∈ l → j < st.routes.length →
      (((l.foldl (routeOneEdge ports) st).routes)[j]?).map EdgeRoute.edgeIdx = some j := by
  intro l
  induction l with
  | nil =>
    intro st j hmem _
    exact absurd hmem (List.not_mem_nil j)
  | cons i r ih =>
    intro st j hmem hlt
    rw [List.foldl_cons]
    rcases List.mem_cons.mp hmem with heq | hr
    · subst heq
      exact routeFold_keep ports r (routeOneEdge ports st j) j
        (routeOneEdge_self ports st j hlt)
    · exact ih (routeOneEdge ports st i) j hr (by rw [routeOneEdge_length]; exact hlt)

theorem routeAllEdges_edgeIdx (rg : RoutingGraph) (ports : PortAssignment)
    (n j : ℕ) (h : j < n) :
    ((routeAllEdges rg ports n)[j]?).map EdgeRoute.edgeIdx = some j := by
  unfold routeAllEdges
  refine routeFold_mem ports _ _ j ?_ ?_
  · exact mem_edgeRoutingOrder ports n j h
  · simpa using h

theorem nudgeRouteUpdate_edgeIdx (o : Orientation) (off : ℚ) (si : ℕ) (r : EdgeRoute) :
    (nudgeRouteUpdate o off si r).edgeIdx = r.edgeIdx := by
  simp only [nudgeRouteUpdate]
  split_ifs <;> rfl

theorem nudgeSegStep_edgeIdx (offs : List (ℕ × ℚ)) (o : Orientation)
    (routes : List EdgeRoute) (seg : EdgeSegment) (j : ℕ) :
    ((nudgeSegStep offs o routes seg)[j]?).map EdgeRoute.edgeIdx =
      (routes[j]?).map EdgeRoute.edgeIdx := by
  simp only [nudgeSegStep]
  split_ifs with h1
  · rfl
  · by_cases hj : j = seg.edgeIdx
    · subst hj
      rw [modAt_getElem?_self]
      cases hx : routes[seg.edgeIdx]? with
      | none => rfl
      | some v => simp [nudgeRouteUpdate_edgeIdx]
    · rw [modAt_getElem? _ _ _ j hj]

theorem foldSegs_edgeIdx (offs : List (ℕ × ℚ)) (o : Orientation) :
    ∀ (segs : List EdgeSegment) (routes : List EdgeRoute) (j : ℕ),
      ((segs.foldl (fun rs seg => nudgeSegStep offs o rs seg) routes)[j]?).map
        EdgeRoute.edgeIdx = (routes[j]?).map EdgeRoute.edgeIdx
  | [], _, _ => rfl
  | s :: r, routes, j =>
    (foldSegs_edgeIdx offs o r (nudgeSegStep offs o routes s) j).trans
      (nudgeSegStep_edgeIdx offs o routes s j)

theorem applyNudgeOffsets_edgeIdx (routes : List EdgeRoute) (bundle : SegmentBundle)
    (offsets : List (ℕ × ℚ)) (j : ℕ) :
    ((applyNudgeOffsets routes bundle offsets)[j]?).map EdgeRoute.edgeIdx =
      (routes[j]?).map EdgeRoute.edgeIdx :=
  foldSegs_edgeIdx offsets bundle.orientation bundle.segments routes j

theorem nudgeBundleStep_edgeIdx (ch : List Channel) (routes : List EdgeRoute)
    (bundle : SegmentBundle) (j : ℕ) :
    ((nudgeBundleStep ch routes bundle)[j]?).map EdgeRoute.edgeIdx =
      (routes[j]?).map EdgeRoute.edgeIdx := by
  simp only [nudgeBundleStep]
  split_ifs <;> first
    | rfl
    | apply applyNudgeOffsets_edgeIdx

theorem nudgeFoldBundles_edgeIdx (ch : List Channel) :
    ∀ (bs : List SegmentBundle) (routes : List EdgeRoute) (j : ℕ),
      ((bs.foldl (nudgeBundleStep ch) routes)[j]?).map EdgeRoute.edgeIdx =
        (routes[j]?).map EdgeRoute.edgeIdx
  | [], _, _ => rfl
  | b :: r, routes, j =>
    (nudgeFoldBundles_edgeIdx ch r (nudgeBundleStep ch routes b) j).trans
      (nudgeBundleStep_edgeIdx ch routes b j)

theorem nudgeRoutes_edgeIdx (routes : List EdgeRoute) (ch : List Channel)
    (boxes : List Rect) (j : ℕ) :
    ((nudgeRoutes routes ch boxes)[j]?).map EdgeRoute.edgeIdx =
      (routes[j]?).map EdgeRoute.edgeIdx := by
  simp only [nudgeRoutes]
  split_ifs with h
  · rfl
  · apply nudgeFoldBundles_edgeIdx

theorem pipelineRoutes_edgeIdx (g : Graph) (es : List ℕ) (k : ℕ)
    (h : k < es.length) :
    ((pipelineRoutes g es)[k]?).map EdgeRoute.edgeIdx = some k := by
  simp only [pipelineRoutes]
  exact (nudgeRoutes_edgeIdx _ _ _ k).trans (routeAllEdges_edgeIdx _ _ es.length k h)

theorem applyFold_nohit (g : Graph) (es : List ℕ) (gi : ℕ) :
    ∀ (routes : List EdgeRoute) (eds : List GEdge),
      (∀ r ∈ routes, (es[r.edgeIdx]?).getD 0 ≠ gi) →
      ((routes.foldl
        (fun eds r => modAt eds ((es[r.edgeIdx]?).getD 0) (updateRoutedEdge g r))
        eds)[gi]?) = eds[gi]?
  | [], _, _ => rfl
  | r0 :: rest, eds, h =>
    (applyFold_nohit g es gi rest
        (modAt eds ((es[r0.edgeIdx]?).getD 0) (updateRoutedEdge g r0))
        (fun r hr => h r (List.mem_cons_of_mem r0 hr))).trans
      (modAt_getElem? eds ((es[r0.edgeIdx]?).getD 0) (updateRoutedEdge g r0) gi
        (Ne.symm (h r0 (List.mem_cons_self r0 rest))))

theorem updateRoutedEdge_label (g : Graph) (r : EdgeRoute) (e : GEdge) :
    (updateRoutedEdge g r e).label = e.label := rfl

theorem updateRoutedEdge_lp (g : Graph) (r : EdgeRoute) (e : GEdge) :
    (updateRoutedEdge g r e).labelPosition =
      if e.label ≠ "" then some insideMiddleCenter else e.labelPosition := rfl

theorem applyFold_hit (g : Graph) (es : List ℕ) (gi : ℕ) :
    ∀ (routes : List EdgeRoute) (eds : List GEdge),
      (∃ r ∈ routes, (es[r.edgeIdx]?).getD 0 = gi) → gi < eds.length →
      ((routes.foldl
        (fun eds r => modAt eds ((es[r.edgeIdx]?).getD 0) (updateRoutedEdge g r))
        eds)[gi]?).map (fun e => (e.label, e.labelPosition)) =
      (eds[gi]?).map (fun e =>
        (e.label, if e.label ≠ "" then some insideMiddleCenter else e.labelPosition)) := by
  intro routes
  induction routes with
  | nil =>
    intro eds hex _
    obtain ⟨r, hr, _⟩ := hex
    exact absurd hr (List.not_mem_nil r)
  | cons r0 rest ih =>
    intro eds hex hlt
    rw [List.foldl_cons]
    have hx : eds[gi]? = some eds[gi] := List.getElem?_eq_getElem hlt
    by_cases h0 : (es[r0.edgeIdx]?).getD 0 = gi
    · have h1 : (modAt eds ((es[r0.edgeIdx]?).getD 0) (updateRoutedEdge g r0))[gi]? =
          some (updateRoutedEdge g r0 eds[gi]) := by
        rw [h0, modAt_getElem?_self, hx]
        rfl
      by_cases hrest : ∃ r ∈ rest, (es[r.edgeIdx]?).getD 0 = gi
      · rw [ih _ hrest (by rw [modAt_length]; exact hlt), h1, hx]
        simp only [Option.map_some']
        rw [Option.some.injEq, updateRoutedEdge_label, updateRoutedEdge_lp]
        by_cases hlab : eds[gi].label = "" <;> simp [hlab]
      · rw [applyFold_nohit g es gi rest _ (by push_neg at hrest; exact hrest), h1, hx]
        simp only [Option.map_some']
        rw [Option.some.injEq, updateRoutedEdge_label, updateRoutedEdge_lp]
    · obtain ⟨r, hr, hridx⟩ := hex
      rcases List.mem_cons.mp hr with heq | hmem
      · subst heq
        exact absurd hridx h0
      · have h1 : (modAt eds ((es[r0.edgeIdx]?).getD 0) (updateRoutedEdge g r0))[gi]? =
            eds[gi]? :=
          modAt_getElem? eds _ _ gi (fun hh => h0 (hh.symm))
        rw [ih _ ⟨r, hmem, hridx⟩ (by rw [modAt_length]; exact hlt), h1]

/-- C10: after a successful `RouteEdges` call, every routed edge's label
position is inside-middle-center when its label text is non-empty (any
pre-set position is overwritten) and is unchanged when the label text is
empty. -/
theorem claim_C10 (g : Graph) (es : List ℕ) (g2 : Graph)
    (h : RouteEdges g es = Except.ok g2) (gi : ℕ) (hmem : gi ∈ es)
    (hlen : gi < g.edges.length) :
    (g2.edges[gi]?).map GEdge.labelPosition =
      some (if (edgeAt g gi).label ≠ "" then some insideMiddleCenter
            else (edgeAt g gi).labelPosition) := by
  have hne : es ≠ [] := by
    intro hnil
    rw [hnil] at hmem
    exact absurd hmem (List.not_mem_nil gi)
  rw [routeEdges_ok g es hne] at h
  have hg2 : routeEdgesBody g es = g2 := Except.ok.inj h
  subst hg2
  obtain ⟨k, hk, hesk⟩ := List.getElem_of_mem hmem
  have hkidx := pipelineRoutes_edgeIdx g es k hk
  obtain ⟨r, hr⟩ : ∃ r, (pipelineRoutes g es)[k]? = some r := by
    cases hx : (pipelineRoutes g es)[k]? with
    | none => rw [hx] at hkidx; simp at hkidx
    | some v => exact ⟨v, rfl⟩
  have hre : r.edgeIdx = k := by
    rw [hr] at hkidx
    exact Option.some.inj hkidx
  have hmemR : r ∈ pipelineRoutes g es := List.mem_iff_getElem?.mpr ⟨k, hr⟩
  have hidx : (es[r.edgeIdx]?).getD 0 = gi := by
    rw [hre, List.getElem?_eq_getElem hk, hesk]
    rfl
  have hedge : edgeAt g gi = g.edges[gi] := by
    unfold edgeAt
    rw [List.getElem?_eq_getElem hlen]
    rfl
  have hpair := applyFold_hit g es gi (pipelineRoutes g es) g.edges
    ⟨r, hmemR, hidx⟩ hlen
  have hfoldeq : (routeEdgesBody g es).edges =
      (pipelineRoutes g es).foldl
        (fun eds r => modAt eds ((es[r.edgeIdx]?).getD 0) (updateRoutedEdge g r))
        g.edges := rfl
  rw [hfoldeq]
  rw [List.getElem?_eq_getElem hlen] at hpair
  cases hfold : ((pipelineRoutes g es).foldl
      (fun eds r => modAt eds ((es[r.edgeIdx]?).getD 0) (updateRoutedEdge g r))
      g.edges)[gi]? with
  | none => rw [hfold] at hpair; simp at hpair
  | some e2 =>
    rw [hfold] at hpair
    simp only [Option.map_some', Option.some.injEq, Prod.ext_iff] at hpair
    simp only [Option.map_some', Option.some.injEq]
    rw [hpair.2, hedge]

theorem claim_C10_witness :
    ((routeEdgesBody gW [0, 1]).edges[0]?).map GEdge.labelPosition =
      some (some insideMiddleCenter) ∧
    ((routeEdgesBody gW [0, 1]).edges[1]?).map GEdge.labelPosition =
      some (some "KEEP") := by
  have h : RouteEdges gW [0, 1] = Except.ok (routeEdgesBody gW [0, 1]) :=
    routeEdges_ok gW [0, 1] (by decide)
  constructor
  · exact (claim_C10 gW [0, 1] (routeEdgesBody gW [0, 1]) h 0 (by decide)
      (by decide)).trans (by with_unfolding_all decide)
  · exact (claim_C10 gW [0, 1] (routeEdgesBody gW [0, 1]) h 1 (by decide)
      (by decide)).trans (by with_unfolding_all decide)

end D2
